import Mathlib

/-!
A shallow embedding of the `@worldbrain/storex-middleware-change-watcher`
package: the change type model (`src/ts/types.ts`), the default operation
watchers (`src/ts/operation-watchers.ts`) and the interception middleware
(`src/ts/index.ts`), together with proofs of the specified properties.

JavaScript values appearing in operations are modelled by `JsValue`;
objects are association lists; `undefined` is an explicit value, so that
JS truthiness and missing-field lookups are represented faithfully.
Asynchronous functions are modelled as pure functions; thrown exceptions
(both deliberate `throw new Error(...)` and JS runtime `TypeError`s) are
modelled with `Except String`.
-/

inductive JsValue where
  | str (s : String)
  | num (n : Int)
  | boolean (b : Bool)
  | null
  | jsUndefined
deriving DecidableEq

abbrev JsObject := List (String × JsValue)

/-- JS property lookup: missing keys read as `undefined`. -/
def objGet (o : JsObject) (k : String) : JsValue :=
  match o.find? (fun p => p.1 == k) with
  | some p => p.2
  | none => .jsUndefined

/-- JS truthiness for the modelled values (`""`, `0`, `false`, `null`,
`undefined` are falsy). -/
def JsValue.truthy : JsValue → Bool
  | .str s => !(s == "")
  | .num n => !(n == 0)
  | .boolean b => b
  | .null => false
  | .jsUndefined => false

/-- A primary key: a scalar or a compound (positionally ordered) key. -/
inductive Pk where
  | scalar (v : JsValue)
  | comp (vs : List JsValue)
deriving DecidableEq

/-- JS positional indexing `pk[index]`, as used by `_getChangeWhere`: arrays
index into their elements, strings into their characters, other scalars give
`undefined`. -/
def pkGet : Pk → Nat → JsValue
  | .comp vs, i => vs.getD i .jsUndefined
  | .scalar (.str s), i =>
    match s.toList.get? i with
    | some c => .str (String.singleton c)
    | none => .jsUndefined
  | .scalar _, _ => .jsUndefined

/-- The `hasPk` test `!!pk && (pk instanceof Array ? every(pk) : true)` of
`createObject.getInfoBeforeExecution`: a scalar key counts when truthy, a
compound key when every component is truthy (a JS array is itself always
truthy, and lodash `every` checks truthiness of the elements). -/
def pkTruthy : Pk → Bool
  | .scalar v => v.truthy
  | .comp vs => vs.all JsValue.truthy

/-- A value occurring in a `where` filter: a plain value or an
`{ $in: [...] }` set filter. -/
inductive QVal where
  | v (x : JsValue)
  | inList (pks : List Pk)
deriving DecidableEq

abbrev Where := List (String × QVal)

/-- An entry of a compound `pkIndex`: a plain field name, or a non-string entry
(storex also allows relationship entries there), which `_getChangeWhere`
rejects. -/
inductive PkEntry where
  | field (name : String)
  | relation (name : String)
deriving DecidableEq

def PkEntry.fieldName : PkEntry → String
  | .field n => n
  | .relation n => n

inductive PkIndex where
  | single (name : String)
  | compound (entries : List PkEntry)
deriving DecidableEq

structure CollectionDefinition where
  name : Option String
  pkIndex : PkIndex

abbrev StorageRegistry := String → CollectionDefinition

/-- The storage manager as consumed by this package: a collection registry and
the `findObjects` read used to resolve the objects a filter matches (spec §6). -/
structure StorageManager where
  registry : StorageRegistry
  findObjects : String → Where → List JsObject

/-- Modelled from the spec: `getObjectPk` lives in
`@worldbrain/storex/lib/utils`, outside this repository. Per spec §4.3
("resolves the primary key from the supplied values using the collection's
key-field schema") and §3 (compound keys are "positionally aligned with the
collection's declared key fields"): a single-field key reads that field, a
compound key reads each declared entry's field in order. -/
def getObjectPk (object : JsObject) (collection : String) (registry : StorageRegistry) : Pk :=
  match (registry collection).pkIndex with
  | .single f => .scalar (objGet object f)
  | .compound es => .comp (es.map (fun e => objGet object e.fieldName))

/-- Modelled from the spec: `getObjectWithoutPk` lives in
`@worldbrain/storex/lib/utils`, outside this repository. Per spec §4.3,
`values` are "reported without the key fields (the key is reported separately,
not duplicated inside `values`)". -/
def getObjectWithoutPk (object : JsObject) (collection : String) (registry : StorageRegistry) : JsObject :=
  match (registry collection).pkIndex with
  | .single f => object.filter (fun p => !(p.1 == f))
  | .compound es => object.filter (fun p => !(es.any (fun e => e.fieldName == p.1)))

/-- The `StorageChange` discriminated union from `src/ts/types.ts`. The
`pre`/`post` phase distinction is type-level only in the source; here
`create`'s `pk` is optional and post-phase creation changes always populate
it. `wh` renders the source's `where` field (a Lean keyword). -/
inductive StorageChange where
  | create (collection : String) (values : JsObject) (pk : Option Pk)
  | modify (collection : String) (wh : Where) (updates : JsObject) (pks : List Pk)
  | delete (collection : String) (wh : Where) (pks : List Pk)
deriving DecidableEq

def StorageChange.collection : StorageChange → String
  | .create c _ _ => c
  | .modify c _ _ _ => c
  | .delete c _ _ => c

structure StorageOperationChangeInfo where
  changes : List StorageChange
deriving DecidableEq

/-- A batch sub-operation (an `OperationBatch` element): its `operation` tag
with the fields that tag uses, plus the optional `placeholder`. `unknownOp`
stands for any other tag. -/
inductive BatchOperation where
  | createOp (placeholder : Option String) (collection : String) (args : JsObject)
  | updateOp (placeholder : Option String) (collection : String) (wh : Where) (updates : JsObject)
  | deleteOp (placeholder : Option String) (collection : String) (wh : Where)
  | unknownOp (tag : String)
deriving DecidableEq

def BatchOperation.operationTag : BatchOperation → String
  | .createOp _ _ _ => "createObject"
  | .updateOp _ _ _ _ => "updateObjects"
  | .deleteOp _ _ _ => "deleteObjects"
  | .unknownOp t => t

def BatchOperation.placeholder : BatchOperation → Option String
  | .createOp ph _ _ => ph
  | .updateOp ph _ _ _ => ph
  | .deleteOp ph _ _ => ph
  | .unknownOp _ => none

/-- JS truthiness of an optional string field, as in the source's
`!batchOperation.placeholder` check: absent and empty-string placeholders are
both falsy. -/
def truthyOptStr : Option String → Bool
  | none => false
  | some s => !(s == "")

/-- The operation tuples this package pattern-matches on (`operation[0]` is
the name, the rest are positional arguments). `other` covers operation names
the watcher registry does not know. -/
inductive Operation where
  | createObject (collection : String) (values : JsObject)
  | updateObject (collection : String) (wh : Where) (updates : JsObject)
  | updateObjects (collection : String) (wh : Where) (updates : JsObject)
  | deleteObject (collection : String) (wh : Where)
  | deleteObjects (collection : String) (wh : Where)
  | executeBatch (operations : List BatchOperation)
  | other (tag : String)
deriving DecidableEq

def Operation.name : Operation → String
  | .createObject _ _ => "createObject"
  | .updateObject _ _ _ => "updateObject"
  | .updateObjects _ _ _ => "updateObjects"
  | .deleteObject _ _ => "deleteObject"
  | .deleteObjects _ _ => "deleteObjects"
  | .executeBatch _ => "executeBatch"
  | .other t => t

/-- Execution results returned by the next pipeline stage: `{ object }` for
`createObject`, `{ info: { [placeholder]: { object } } }` for `executeBatch`
(flattened here to the created object per placeholder), or anything else. -/
inductive ExecResult where
  | objectResult (object : JsObject)
  | batchResult (info : List (String × JsObject))
  | jsUndefined
  | otherResult
deriving DecidableEq

structure GetInfoBeforeContext where
  operation : Operation
  storageManager : StorageManager

structure TransformContext where
  originalOperation : Operation
  storageManager : StorageManager
  info : StorageOperationChangeInfo

structure GetInfoAfterContext where
  operation : Operation
  preInfo : StorageOperationChangeInfo
  result : ExecResult
  storageManager : StorageManager

/-- The `StorageOperationWatcher` interface from `src/ts/types.ts`. -/
structure StorageOperationWatcher where
  getInfoBeforeExecution : GetInfoBeforeContext → Except String StorageOperationChangeInfo
  transformOperation : Option (TransformContext → Except String (Option Operation))
  getInfoAfterExecution : GetInfoAfterContext → Except String StorageOperationChangeInfo

/-- `_findObjectsInvolvedInFilteredOperation` from
`src/ts/operation-watchers.ts` (the source reads `operation[1]` and
`operation[2]`; its callers pass them here directly). -/
def _findObjectsInvolvedInFilteredOperation (storageManager : StorageManager) (collection : String) (wh : Where) : List JsObject :=
  storageManager.findObjects collection wh

/-- The `createObject` watcher from `src/ts/operation-watchers.ts`
(lines 6–35). -/
def createObject : StorageOperationWatcher where
  getInfoBeforeExecution := fun context =>
    match context.operation with
    | .createObject collection values =>
      let pk := getObjectPk values collection context.storageManager.registry
      let hasPk := pkTruthy pk
      .ok ⟨[.create collection (getObjectWithoutPk values collection context.storageManager.registry)
              (if hasPk then some pk else none)]⟩
    | _ => .error "TypeError: createObject watcher applied to an operation of another shape"
  transformOperation := none
  getInfoAfterExecution := fun context =>
    match context.operation with
    | .createObject collection values =>
      match context.result with
      | .objectResult object =>
        .ok ⟨[.create collection (getObjectWithoutPk values collection context.storageManager.registry)
                (some (getObjectPk object collection context.storageManager.registry))]⟩
      | _ => .error "TypeError: cannot read property object of the execution result"
    | _ => .error "TypeError: createObject watcher applied to an operation of another shape"

/-- The compound-entry loop of `_getChangeWhere` (source lines 276–283): each
entry must be a plain string field name, and the i-th field name is mapped to
`pk[i]`. An absent collection name renders as `"undefined"` in the error
message, as JS string interpolation would. -/
def _getChangeWhereLoop (pk : Pk) (collectionName : Option String) (index : Nat) : List PkEntry → Except String Where
  | [] => .ok []
  | .field f :: rest => do
    let tail ← _getChangeWhereLoop pk collectionName (index + 1) rest
    .ok ((f, QVal.v (pkGet pk index)) :: tail)
  | .relation _ :: _ =>
    .error ("Collection " ++ collectionName.getD "undefined" ++ " has primary type unsupported by change watch middleware")

/-- `_getChangeWhere` from `src/ts/operation-watchers.ts` (lines 274–286). A
string `pkIndex` would be iterated character-by-character by the source's
`for..of` (each character being a string); the only caller guards that case
away. -/
def _getChangeWhere (pk : Pk) (collectionDefinition : CollectionDefinition) : Except String Where :=
  match collectionDefinition.pkIndex with
  | .single s => .ok (s.toList.mapIdx (fun i c => (String.singleton c, QVal.v (pkGet pk i))))
  | .compound entries => _getChangeWhereLoop pk collectionDefinition.name 0 entries

/-- The compound-key branch of `updateObject.transformOperation`: one
sub-operation per primary key, the placeholder counter advancing once per
emitted sub-operation. -/
def updateTransformCompoundLoop (collectionDefinition : CollectionDefinition) (collection : String) (updates : JsObject) (index : Nat) : List Pk → Except String (List BatchOperation)
  | [] => .ok []
  | pk :: rest => do
    let wh ← _getChangeWhere pk collectionDefinition
    let tail ← updateTransformCompoundLoop collectionDefinition collection updates (index + 1) rest
    .ok (.updateOp (some ("change-" ++ toString index)) collection wh updates :: tail)

/-- The change loop of `updateObject.transformOperation` (source lines
55–91). The source's counter starts at `-1` and is incremented before each
emission; here `index` is the next placeholder number, starting at `0`. -/
def updateTransformLoop (storageManager : StorageManager) (index : Nat) : List StorageChange → Except String (List BatchOperation)
  | [] => .ok []
  | change :: rest =>
    match change with
    | .modify collection _ updates pks =>
      let collectionDefinition := storageManager.registry collection
      match collectionDefinition.pkIndex with
      | .single pkField => do
        let tail ← updateTransformLoop storageManager (index + 1) rest
        .ok (.updateOp (some ("change-" ++ toString index)) collection [(pkField, QVal.inList pks)] updates :: tail)
      | .compound _ => do
        let subOps ← updateTransformCompoundLoop collectionDefinition collection updates index pks
        let tail ← updateTransformLoop storageManager (index + pks.length) rest
        .ok (subOps ++ tail)
    | _ => .error "Something weird happened in updateObject change watcher during operation transform"

/-- The `updateObject` watcher (source lines 37–113), registered for both the
`updateObject` and `updateObjects` operation names. -/
def updateObject : StorageOperationWatcher where
  getInfoBeforeExecution := fun context =>
    match context.operation with
    | .updateObject collection wh updates | .updateObjects collection wh updates =>
      let affectedObjects := _findObjectsInvolvedInFilteredOperation context.storageManager collection wh
      .ok ⟨[.modify collection wh updates
              (affectedObjects.map (fun object => getObjectPk object collection context.storageManager.registry))]⟩
    | _ => .error "TypeError: updateObject watcher applied to an operation of another shape"
  transformOperation := some (fun context => do
    let batch ← updateTransformLoop context.storageManager 0 context.info.changes
    .ok (some (.executeBatch batch)))
  getInfoAfterExecution := fun context =>
    match context.operation with
    | .updateObject collection wh updates | .updateObjects collection wh updates =>
      match context.preInfo.changes with
      | [] => .error "TypeError: cannot read property type of undefined"
      | preInfoChange :: _ =>
        match preInfoChange with
        | .modify _ _ _ pks => .ok ⟨[.modify collection wh updates pks]⟩
        | _ => .error "Something weird happened in updateObject change watcher"
    | _ => .error "TypeError: updateObject watcher applied to an operation of another shape"

/-- The compound-key branch of `deleteObject.transformOperation`. -/
def deleteTransformCompoundLoop (collectionDefinition : CollectionDefinition) (collection : String) (index : Nat) : List Pk → Except String (List BatchOperation)
  | [] => .ok []
  | pk :: rest => do
    let wh ← _getChangeWhere pk collectionDefinition
    let tail ← deleteTransformCompoundLoop collectionDefinition collection (index + 1) rest
    .ok (.deleteOp (some ("change-" ++ toString index)) collection wh :: tail)

/-- The change loop of `deleteObject.transformOperation` (source lines
130–164); its defensive error message names `updateObject`, as in the
source. -/
def deleteTransformLoop (storageManager : StorageManager) (index : Nat) : List StorageChange → Except String (List BatchOperation)
  | [] => .ok []
  | change :: rest =>
    match change with
    | .delete collection _ pks =>
      let collectionDefinition := storageManager.registry collection
      match collectionDefinition.pkIndex with
      | .single pkField => do
        let tail ← deleteTransformLoop storageManager (index + 1) rest
        .ok (.deleteOp (some ("change-" ++ toString index)) collection [(pkField, QVal.inList pks)] :: tail)
      | .compound _ => do
        let subOps ← deleteTransformCompoundLoop collectionDefinition collection index pks
        let tail ← deleteTransformLoop storageManager (index + pks.length) rest
        .ok (subOps ++ tail)
    | _ => .error "Something weird happened in updateObject change watcher during operation transform"

/-- The `deleteObject` watcher (source lines 115–185), registered for both the
`deleteObject` and `deleteObjects` operation names; its defensive post-phase
error message names `updateObject`, as in the source. -/
def deleteObject : StorageOperationWatcher where
  getInfoBeforeExecution := fun context =>
    match context.operation with
    | .deleteObject collection wh | .deleteObjects collection wh =>
      let affectedObjects := _findObjectsInvolvedInFilteredOperation context.storageManager collection wh
      .ok ⟨[.delete collection wh
              (affectedObjects.map (fun object => getObjectPk object collection context.storageManager.registry))]⟩
    | _ => .error "TypeError: deleteObject watcher applied to an operation of another shape"
  transformOperation := some (fun context => do
    let batch ← deleteTransformLoop context.storageManager 0 context.info.changes
    .ok (some (.executeBatch batch)))
  getInfoAfterExecution := fun context =>
    match context.operation with
    | .deleteObject collection wh | .deleteObjects collection wh =>
      match context.preInfo.changes with
      | [] => .error "TypeError: cannot read property type of undefined"
      | preInfoChange :: _ =>
        match preInfoChange with
        | .delete _ _ pks => .ok ⟨[.delete collection wh pks]⟩
        | _ => .error "Something weird happened in updateObject change watcher"
    | _ => .error "TypeError: deleteObject watcher applied to an operation of another shape"

/-- The sub-operation loop of `executeBatch.getInfoBeforeExecution` (source
lines 195–218): the placeholder check for `createObject` sub-operations comes
first, then dispatch to the matching watcher on a narrowed single-operation
view; unknown tags fail. -/
def executeBatchPreLoop (storageManager : StorageManager) : List BatchOperation → Except String (List StorageChange)
  | [] => .ok []
  | batchOperation :: rest =>
    if !(truthyOptStr batchOperation.placeholder) && batchOperation.operationTag == "createObject" then
      .error "ChangeWatchMiddleware cannot handle executeBatch createObject operations without placeholders"
    else
      match batchOperation with
      | .createOp _ collection args => do
        let info ← createObject.getInfoBeforeExecution ⟨.createObject collection args, storageManager⟩
        let tail ← executeBatchPreLoop storageManager rest
        .ok (info.changes ++ tail)
      | .updateOp _ collection wh updates => do
        let info ← updateObject.getInfoBeforeExecution ⟨.updateObjects collection wh updates, storageManager⟩
        let tail ← executeBatchPreLoop storageManager rest
        .ok (info.changes ++ tail)
      | .deleteOp _ collection wh => do
        let info ← deleteObject.getInfoBeforeExecution ⟨.deleteObjects collection wh, storageManager⟩
        let tail ← executeBatchPreLoop storageManager rest
        .ok (info.changes ++ tail)
      | .unknownOp t => .error ("Change watcher middleware encountered unknown batch operation: " ++ t)

/-- The per-placeholder result lookup
`context.result.info[batchOperation.placeholder!]` of
`executeBatch.getInfoAfterExecution`: a result without an `info` map is a
`TypeError`; an absent placeholder looks up the key `"undefined"`; a missing
entry reads as `undefined`. -/
def batchSubResult (result : ExecResult) (placeholder : Option String) : Except String ExecResult :=
  match result with
  | .batchResult info =>
    match info.find? (fun p => p.1 == placeholder.getD "undefined") with
    | some p => .ok (.objectResult p.2)
    | none => .ok .jsUndefined
  | _ => .error "TypeError: cannot read property info of the execution result"

/-- The indexed sub-operation loop of `executeBatch.getInfoAfterExecution`
(source lines 224–264): `index` selects the sub-operation's slice of the
pre-execution changes (an out-of-range index yields an empty slice, which the
sub-watchers reject just as they reject an `undefined` entry). -/
def executeBatchPostLoop (storageManager : StorageManager) (preChanges : List StorageChange) (result : ExecResult) (index : Nat) : List BatchOperation → Except String (List StorageChange)
  | [] => .ok []
  | batchOperation :: rest =>
    let preSlice : StorageOperationChangeInfo :=
      ⟨match preChanges.get? index with
        | some c => [c]
        | none => []⟩
    match batchOperation with
    | .createOp placeholder collection args => do
      let subResult ← batchSubResult result placeholder
      let info ← createObject.getInfoAfterExecution ⟨.createObject collection args, preSlice, subResult, storageManager⟩
      let tail ← executeBatchPostLoop storageManager preChanges result (index + 1) rest
      .ok (info.changes ++ tail)
    | .updateOp _ collection wh updates => do
      let info ← updateObject.getInfoAfterExecution ⟨.updateObjects collection wh updates, preSlice, result, storageManager⟩
      let tail ← executeBatchPostLoop storageManager preChanges result (index + 1) rest
      .ok (info.changes ++ tail)
    | .deleteOp _ collection wh => do
      let info ← deleteObject.getInfoAfterExecution ⟨.deleteObjects collection wh, preSlice, result, storageManager⟩
      let tail ← executeBatchPostLoop storageManager preChanges result (index + 1) rest
      .ok (info.changes ++ tail)
    | .unknownOp t => .error ("Change watcher middleware encountered unknown batch operation: " ++ t)

/-- The `executeBatch` watcher (source lines 187–265). -/
def executeBatch : StorageOperationWatcher where
  getInfoBeforeExecution := fun context =>
    match context.operation with
    | .executeBatch batch => do
      let changes ← executeBatchPreLoop context.storageManager batch
      .ok ⟨changes⟩
    | _ => .error "TypeError: executeBatch watcher applied to an operation of another shape"
  transformOperation := none
  getInfoAfterExecution := fun context =>
    match context.operation with
    | .executeBatch batch => do
      let changes ← executeBatchPostLoop context.storageManager context.preInfo.changes context.result 0 batch
      .ok ⟨changes⟩
    | _ => .error "TypeError: executeBatch watcher applied to an operation of another shape"

/-- `DEFAULT_OPERATION_WATCHERS` (source lines 288–295), as the name-indexed
map the middleware consults. -/
def DEFAULT_OPERATION_WATCHERS : String → Option StorageOperationWatcher := fun name =>
  if name == "createObject" then some createObject
  else if name == "updateObject" then some updateObject
  else if name == "updateObjects" then some updateObject
  else if name == "deleteObject" then some deleteObject
  else if name == "deleteObjects" then some deleteObject
  else if name == "executeBatch" then some executeBatch
  else none

structure StorageOperationEvent where
  originalOperation : Operation
  modifiedOperation : Option Operation
  info : StorageOperationChangeInfo
deriving DecidableEq

/-- The observable outcome of one `ChangeWatchMiddleware.process` call: the
value returned, the operation and side-channel `changeInfo` handed to the next
stage, and the events delivered to the optional pre/post hooks (`none` when
the hook call site is not reached). -/
structure ProcessOutcome where
  result : ExecResult
  executedOperation : Operation
  executedChangeInfo : StorageOperationChangeInfo
  preHookEvent : Option StorageOperationEvent
  postHookEvent : Option StorageOperationEvent
deriving DecidableEq

structure ChangeWatchMiddleware where
  enabled : Bool
  shouldWatchCollection : String → Bool
  operationWatchers : String → Option StorageOperationWatcher
  storageManager : StorageManager

/-- `ChangeWatchMiddleware.process` (`src/ts/index.ts` lines 28–83). `next` is
the next pipeline stage, receiving the executed operation and the side-channel
`changeInfo`; `cloneDeep` is the identity on pure values. -/
def ChangeWatchMiddleware.process (middleware : ChangeWatchMiddleware) (next : Operation → StorageOperationChangeInfo → ExecResult) (operation : Operation) : Except String ProcessOutcome :=
  let originalOperation := operation
  if !middleware.enabled then
    .ok ⟨next originalOperation ⟨[]⟩, originalOperation, ⟨[]⟩, none, none⟩
  else
    match middleware.operationWatchers originalOperation.name with
    | none => .ok ⟨next originalOperation ⟨[]⟩, originalOperation, ⟨[]⟩, none, none⟩
    | some watcher => do
      let rawPreInfo ← watcher.getInfoBeforeExecution ⟨originalOperation, middleware.storageManager⟩
      let preInfo : StorageOperationChangeInfo :=
        ⟨rawPreInfo.changes.filter (fun change => middleware.shouldWatchCollection change.collection)⟩
      if preInfo.changes.isEmpty then
        .ok ⟨next originalOperation ⟨[]⟩, originalOperation, ⟨[]⟩, none, none⟩
      else do
        let modifiedOperation ← match watcher.transformOperation with
          | some transform => transform ⟨originalOperation, middleware.storageManager, preInfo⟩
          | none => .ok none
        let executedOperation := modifiedOperation.getD originalOperation
        let result := next executedOperation preInfo
        let postInfo ← watcher.getInfoAfterExecution ⟨originalOperation, rawPreInfo, result, middleware.storageManager⟩
        .ok ⟨result, executedOperation, preInfo,
             some ⟨originalOperation, modifiedOperation, preInfo⟩,
             some ⟨originalOperation, modifiedOperation, postInfo⟩⟩

/-!
Claim-side definitions: these follow the wording of the specification, to be
compared with the embedded source functions above.
-/

/-- `mapWithIndexFrom f n [a, b, ...] = [f n a, f (n+1) b, ...]`: a positional
map used to express "a zero-based counter incremented once per emitted
sub-operation, in emission order". -/
def mapWithIndexFrom (f : Nat → α → β) : Nat → List α → List β
  | _, [] => []
  | n, a :: l => f n a :: mapWithIndexFrom f (n + 1) l

def PkEntry.isField : PkEntry → Bool
  | .field _ => true
  | .relation _ => false

def Pk.isComp : Pk → Bool
  | .comp _ => true
  | .scalar _ => false

/-- Claim-side filter (C1): the where-filter for one compound key, "built
positionally by mapping the i-th declared key field name to the i-th
component of that key". -/
def positionalWhere (entries : List PkEntry) (pk : Pk) : Where :=
  mapWithIndexFrom (fun i e => (e.fieldName, QVal.v (pkGet pk i))) 0 entries

/-- Claim-side description (C1): the sub-operation bodies one update change
produces — a single in-set sub-operation for a single-field key, one
positional sub-operation per individual primary key for a compound key —
as (collection, filter, updates) triples, before placeholders are assigned. -/
def pendingUpdateSubOps (storageManager : StorageManager) : StorageChange → List (String × Where × JsObject)
  | .modify collection _ updates pks =>
    match (storageManager.registry collection).pkIndex with
    | .single f => [(collection, [(f, QVal.inList pks)], updates)]
    | .compound es => pks.map (fun pk => (collection, positionalWhere es pk, updates))
  | _ => []

/-- Claim-side description (C1), delete variant. -/
def pendingDeleteSubOps (storageManager : StorageManager) : StorageChange → List (String × Where)
  | .delete collection _ pks =>
    match (storageManager.registry collection).pkIndex with
    | .single f => [(collection, [(f, QVal.inList pks)])]
    | .compound es => pks.map (fun pk => (collection, positionalWhere es pk))
  | _ => []

/-- Claim-side description (C1): the full rewritten update batch, with
placeholder `change-<k>`, `k` being the sub-operation's zero-based position
in emission order. -/
def claimUpdateBatch (storageManager : StorageManager) (changes : List StorageChange) : List BatchOperation :=
  mapWithIndexFrom
    (fun k p => .updateOp (some ("change-" ++ toString k)) p.1 p.2.1 p.2.2) 0
    (changes.flatMap (pendingUpdateSubOps storageManager))

/-- Claim-side description (C1), delete variant. -/
def claimDeleteBatch (storageManager : StorageManager) (changes : List StorageChange) : List BatchOperation :=
  mapWithIndexFrom
    (fun k p => .deleteOp (some ("change-" ++ toString k)) p.1 p.2) 0
    (changes.flatMap (pendingDeleteSubOps storageManager))

/-- A change an update transform can process in the way C1 describes: a
modification change whose collection either has a single-field key, or a
compound key, all of whose declared entries are plain field names and all of
whose resolved keys are compound values (so that "the i-th component of that
key" is meaningful). -/
def updateChangeWellFormed (storageManager : StorageManager) : StorageChange → Bool
  | .modify collection _ _ pks =>
    match (storageManager.registry collection).pkIndex with
    | .single _ => true
    | .compound es => es.all PkEntry.isField && pks.all Pk.isComp
  | _ => false

/-- Delete variant of `updateChangeWellFormed`. -/
def deleteChangeWellFormed (storageManager : StorageManager) : StorageChange → Bool
  | .delete collection _ pks =>
    match (storageManager.registry collection).pkIndex with
    | .single _ => true
    | .compound es => es.all PkEntry.isField && pks.all Pk.isComp
  | _ => false

/-- Claim-side predicate (C5): all of the collection's key fields are present
and non-empty — i.e. JS-truthy — in the supplied values. -/
def keyFieldsPresentAndNonEmpty (pkIndex : PkIndex) (values : JsObject) : Bool :=
  match pkIndex with
  | .single f => (objGet values f).truthy
  | .compound es => es.all (fun e => (objGet values e.fieldName).truthy)

/-- Claim-side predicate (C3): a `createObject` sub-operation without a
placeholder, in the JS sense of the source's falsiness check (absent or
empty-string placeholder). -/
def isCreateWithoutPlaceholder (b : BatchOperation) : Bool :=
  b.operationTag == "createObject" && !(truthyOptStr b.placeholder)

/-- Claim-side predicate (C3): a sub-operation whose operation tag is not one
of the three known kinds. In this embedding these are exactly the `unknownOp`
values: JS dispatches on the tag string, and a sub-operation bearing one of
the three known tags is represented by the corresponding constructor. -/
def hasUnknownTag (b : BatchOperation) : Bool :=
  match b with
  | .unknownOp _ => true
  | _ => false

def badBatchOperation (b : BatchOperation) : Bool :=
  isCreateWithoutPlaceholder b || hasUnknownTag b

/-- The per-sub-operation dispatch of `executeBatch.getInfoBeforeExecution`:
the narrowed single-operation view handed to the matching built-in watcher
(source lines 200–217). -/
def dispatchSubOperationPre (storageManager : StorageManager) : BatchOperation → Except String StorageOperationChangeInfo
  | .createOp _ collection args =>
    createObject.getInfoBeforeExecution ⟨.createObject collection args, storageManager⟩
  | .updateOp _ collection wh updates =>
    updateObject.getInfoBeforeExecution ⟨.updateObjects collection wh updates, storageManager⟩
  | .deleteOp _ collection wh =>
    deleteObject.getInfoBeforeExecution ⟨.deleteObjects collection wh, storageManager⟩
  | .unknownOp t =>
    .error ("Change watcher middleware encountered unknown batch operation: " ++ t)

/-- Claim-side relation (C4): two changes describe the same collection and
logical target — same type tag, same collection, and for creation the same
object values / for update and delete the same pks. -/
def sameLogicalTarget : StorageChange → StorageChange → Prop
  | .create c v _, .create c' v' _ => c = c' ∧ v = v'
  | .modify c _ _ pks, .modify c' _ _ pks' => c = c' ∧ pks = pks'
  | .delete c _ pks, .delete c' _ pks' => c = c' ∧ pks = pks'
  | _, _ => False

theorem mapWithIndexFrom_append (f : Nat → α → β) (l₁ l₂ : List α) :
    ∀ n, mapWithIndexFrom f n (l₁ ++ l₂)
      = mapWithIndexFrom f n l₁ ++ mapWithIndexFrom f (n + l₁.length) l₂ := by
  induction l₁ with
  | nil => intro n; simp [mapWithIndexFrom]
  | cons a l ih =>
    intro n
    have h : n + (a :: l).length = (n + 1) + l.length := by
      simp only [List.length_cons]; omega
    calc mapWithIndexFrom f n ((a :: l) ++ l₂)
        = f n a :: mapWithIndexFrom f (n + 1) (l ++ l₂) := rfl
      _ = f n a :: (mapWithIndexFrom f (n + 1) l ++ mapWithIndexFrom f ((n + 1) + l.length) l₂) := by
          rw [ih (n + 1)]
      _ = mapWithIndexFrom f n (a :: l) ++ mapWithIndexFrom f (n + (a :: l).length) l₂ := by
          rw [h]
          rfl

theorem mapWithIndexFrom_map (f : Nat → β → γ) (g : α → β) (l : List α) :
    ∀ n, mapWithIndexFrom f n (l.map g)
      = mapWithIndexFrom (fun i a => f i (g a)) n l := by
  induction l with
  | nil => intro n; rfl
  | cons a l ih => intro n; simp only [List.map_cons, mapWithIndexFrom, ih (n + 1)]

theorem pkTruthy_getObjectPk (values : JsObject) (collection : String) (registry : StorageRegistry) :
    pkTruthy (getObjectPk values collection registry)
      = keyFieldsPresentAndNonEmpty (registry collection).pkIndex values := by
  unfold pkTruthy getObjectPk keyFieldsPresentAndNonEmpty
  cases (registry collection).pkIndex with
  | single f => rfl
  | compound es =>
    show (es.map (fun e => objGet values e.fieldName)).all JsValue.truthy
      = es.all fun e => (objGet values e.fieldName).truthy
    induction es with
    | nil => rfl
    | cons e es ih => simp only [List.map_cons, List.all_cons, ih]

/-- C2: for every update and delete operation, `getInfoAfterExecution` returns
a post-change whose `pks` list is exactly the `pks` list of the pre-execution
change (the first change of the pre-execution info), for every execution
result value `r` — the result is never consulted to recompute `pks`. -/
theorem c2_post_pks_taken_from_pre (storageManager : StorageManager)
    (collection : String) (wh : Where) (updates : JsObject)
    (c : String) (w : Where) (u : JsObject) (pks : List Pk)
    (rest : List StorageChange) (r : ExecResult) :
    updateObject.getInfoAfterExecution
        ⟨.updateObjects collection wh updates, ⟨.modify c w u pks :: rest⟩, r, storageManager⟩
      = .ok ⟨[.modify collection wh updates pks]⟩
    ∧ updateObject.getInfoAfterExecution
        ⟨.updateObject collection wh updates, ⟨.modify c w u pks :: rest⟩, r, storageManager⟩
      = .ok ⟨[.modify collection wh updates pks]⟩
    ∧ deleteObject.getInfoAfterExecution
        ⟨.deleteObjects collection wh, ⟨.delete c w pks :: rest⟩, r, storageManager⟩
      = .ok ⟨[.delete collection wh pks]⟩
    ∧ deleteObject.getInfoAfterExecution
        ⟨.deleteObject collection wh, ⟨.delete c w pks :: rest⟩, r, storageManager⟩
      = .ok ⟨[.delete collection wh pks]⟩ :=
  ⟨rfl, rfl, rfl, rfl⟩

/-- C5: for every `createObject` operation, the pre-info change carries
`pk` (equal to the key resolved from the supplied values) exactly when all
the collection's key fields are present and non-empty (JS-truthy) in the
supplied values, and its `values` are the supplied values with the key fields
removed; the post-info change's `pk` is always taken from the execution
result's object, never re-derived from the input values. -/
theorem c5_create_pk_resolution (storageManager : StorageManager)
    (collection : String) (values : JsObject) :
    createObject.getInfoBeforeExecution ⟨.createObject collection values, storageManager⟩
      = .ok ⟨[.create collection (getObjectWithoutPk values collection storageManager.registry)
          (if keyFieldsPresentAndNonEmpty (storageManager.registry collection).pkIndex values
           then some (getObjectPk values collection storageManager.registry) else none)]⟩
    ∧ ∀ (preInfo : StorageOperationChangeInfo) (object : JsObject),
      createObject.getInfoAfterExecution
          ⟨.createObject collection values, preInfo, .objectResult object, storageManager⟩
        = .ok ⟨[.create collection (getObjectWithoutPk values collection storageManager.registry)
            (some (getObjectPk object collection storageManager.registry))]⟩ := by
  constructor
  · rw [← pkTruthy_getObjectPk values collection storageManager.registry]
    rfl
  · intro preInfo object
    rfl

/-- C6: whenever the middleware is disabled, or no watcher is registered for
the operation's name, or every pre-info change's collection is rejected by
`shouldWatchCollection`, the next pipeline stage receives the original
operation unchanged (a deep copy in the source; value-identical here), no
hook is invoked, and the side-channel `changeInfo` is the empty change info. -/
theorem c6_short_circuits (middleware : ChangeWatchMiddleware)
    (next : Operation → StorageOperationChangeInfo → ExecResult) (operation : Operation) :
    (middleware.enabled = false →
      middleware.process next operation
        = .ok ⟨next operation ⟨[]⟩, operation, ⟨[]⟩, none, none⟩)
    ∧ (middleware.operationWatchers operation.name = none →
      middleware.process next operation
        = .ok ⟨next operation ⟨[]⟩, operation, ⟨[]⟩, none, none⟩)
    ∧ (∀ (watcher : StorageOperationWatcher) (rawPreInfo : StorageOperationChangeInfo),
      middleware.enabled = true →
      middleware.operationWatchers operation.name = some watcher →
      watcher.getInfoBeforeExecution ⟨operation, middleware.storageManager⟩ = .ok rawPreInfo →
      rawPreInfo.changes.filter
          (fun change => middleware.shouldWatchCollection change.collection) = [] →
      middleware.process next operation
        = .ok ⟨next operation ⟨[]⟩, operation, ⟨[]⟩, none, none⟩) := by
  refine ⟨fun hd => ?_, fun hw => ?_, fun watcher rawPreInfo he hw hpre hfilter => ?_⟩
  · simp [ChangeWatchMiddleware.process, hd]
  · cases he : middleware.enabled with
    | false => simp [ChangeWatchMiddleware.process, he]
    | true => simp [ChangeWatchMiddleware.process, he, hw]
  · simp [ChangeWatchMiddleware.process, he, hw, hpre, hfilter, Bind.bind, Except.bind]

/-- C7: for every watched operation, the middleware computes post-info by
calling the watcher's `getInfoAfterExecution` with the raw pre-info exactly
as `getInfoBeforeExecution` returned it (not the `shouldWatchCollection`
filtered copy), together with the value the next pipeline stage returned, and
`process` returns that execution result unchanged. -/
theorem c7_post_uses_raw_pre_info (middleware : ChangeWatchMiddleware)
    (next : Operation → StorageOperationChangeInfo → ExecResult)
    (operation : Operation) (watcher : StorageOperationWatcher)
    (rawPreInfo postInfo : StorageOperationChangeInfo) (modifiedOperation : Option Operation)
    (henabled : middleware.enabled = true)
    (hwatcher : middleware.operationWatchers operation.name = some watcher)
    (hpre : watcher.getInfoBeforeExecution ⟨operation, middleware.storageManager⟩ = .ok rawPreInfo)
    (hnonempty : (rawPreInfo.changes.filter
        (fun change => middleware.shouldWatchCollection change.collection)).isEmpty = false)
    (htransform : (match watcher.transformOperation with
        | some transform => transform ⟨operation, middleware.storageManager,
            ⟨rawPreInfo.changes.filter (fun change => middleware.shouldWatchCollection change.collection)⟩⟩
        | none => .ok none) = .ok modifiedOperation)
    (hpost : watcher.getInfoAfterExecution ⟨operation, rawPreInfo,
        next (modifiedOperation.getD operation)
          ⟨rawPreInfo.changes.filter (fun change => middleware.shouldWatchCollection change.collection)⟩,
        middleware.storageManager⟩ = .ok postInfo) :
    middleware.process next operation = .ok
      ⟨next (modifiedOperation.getD operation)
          ⟨rawPreInfo.changes.filter (fun change => middleware.shouldWatchCollection change.collection)⟩,
        modifiedOperation.getD operation,
        ⟨rawPreInfo.changes.filter (fun change => middleware.shouldWatchCollection change.collection)⟩,
        some ⟨operation, modifiedOperation,
          ⟨rawPreInfo.changes.filter (fun change => middleware.shouldWatchCollection change.collection)⟩⟩,
        some ⟨operation, modifiedOperation, postInfo⟩⟩ := by
  cases htrShape : watcher.transformOperation with
  | none =>
    rw [htrShape] at htransform
    injection htransform with h
    subst h
    simp only [Option.getD_none] at hpost
    simp [ChangeWatchMiddleware.process, henabled, hwatcher, hpre, hnonempty, htrShape, hpost,
      Bind.bind, Except.bind]
  | some transform =>
    rw [htrShape] at htransform
    have htr : transform ⟨operation, middleware.storageManager,
        ⟨rawPreInfo.changes.filter (fun change => middleware.shouldWatchCollection change.collection)⟩⟩
        = .ok modifiedOperation := htransform
    simp [ChangeWatchMiddleware.process, henabled, hwatcher, hpre, hnonempty, htrShape, htr,
      hpost, Bind.bind, Except.bind]

theorem getChangeWhereLoop_fields (pk : Pk) (nm : Option String) :
    ∀ (es : List PkEntry) (i : Nat), es.all PkEntry.isField = true →
      _getChangeWhereLoop pk nm i es
        = .ok (mapWithIndexFrom (fun k e => (e.fieldName, QVal.v (pkGet pk k))) i es) := by
  intro es
  induction es with
  | nil => intro i _; rfl
  | cons e rest ih =>
    intro i h
    simp only [List.all_cons, Bool.and_eq_true] at h
    cases e with
    | field f =>
      simp [_getChangeWhereLoop, mapWithIndexFrom, ih (i + 1) h.2, PkEntry.fieldName,
        Bind.bind, Except.bind]
    | relation r => simp [PkEntry.isField] at h

theorem getChangeWhere_compound (pk : Pk) (cd : CollectionDefinition) (es : List PkEntry)
    (hidx : cd.pkIndex = .compound es) (hf : es.all PkEntry.isField = true) :
    _getChangeWhere pk cd = .ok (positionalWhere es pk) := by
  unfold _getChangeWhere
  rw [hidx]
  exact getChangeWhereLoop_fields pk cd.name es 0 hf

theorem updateTransformCompoundLoop_eq (cd : CollectionDefinition) (collection : String)
    (updates : JsObject) (es : List PkEntry)
    (hidx : cd.pkIndex = .compound es) (hf : es.all PkEntry.isField = true) :
    ∀ (pks : List Pk) (n : Nat),
      updateTransformCompoundLoop cd collection updates n pks
        = .ok (mapWithIndexFrom
            (fun k p => BatchOperation.updateOp (some ("change-" ++ toString k)) p.1 p.2.1 p.2.2) n
            (pks.map (fun pk => (collection, positionalWhere es pk, updates)))) := by
  intro pks
  induction pks with
  | nil => intro n; rfl
  | cons pk rest ih =>
    intro n
    simp [updateTransformCompoundLoop, getChangeWhere_compound pk cd es hidx hf, ih (n + 1),
      mapWithIndexFrom, List.map_cons, Bind.bind, Except.bind]

theorem deleteTransformCompoundLoop_eq (cd : CollectionDefinition) (collection : String)
    (es : List PkEntry)
    (hidx : cd.pkIndex = .compound es) (hf : es.all PkEntry.isField = true) :
    ∀ (pks : List Pk) (n : Nat),
      deleteTransformCompoundLoop cd collection n pks
        = .ok (mapWithIndexFrom
            (fun k p => BatchOperation.deleteOp (some ("change-" ++ toString k)) p.1 p.2) n
            (pks.map (fun pk => (collection, positionalWhere es pk)))) := by
  intro pks
  induction pks with
  | nil => intro n; rfl
  | cons pk rest ih =>
    intro n
    simp [deleteTransformCompoundLoop, getChangeWhere_compound pk cd es hidx hf, ih (n + 1),
      mapWithIndexFrom, List.map_cons, Bind.bind, Except.bind]

theorem updateTransformLoop_eq (storageManager : StorageManager) :
    ∀ (changes : List StorageChange) (n : Nat),
      changes.all (updateChangeWellFormed storageManager) = true →
      updateTransformLoop storageManager n changes
        = .ok (mapWithIndexFrom
            (fun k p => BatchOperation.updateOp (some ("change-" ++ toString k)) p.1 p.2.1 p.2.2) n
            (changes.flatMap (pendingUpdateSubOps storageManager))) := by
  intro changes
  induction changes with
  | nil => intro n _; rfl
  | cons change rest ih =>
    intro n h
    simp only [List.all_cons, Bool.and_eq_true] at h
    obtain ⟨h1, h2⟩ := h
    cases change with
    | create c v p => simp [updateChangeWellFormed] at h1
    | delete c w pks => simp [updateChangeWellFormed] at h1
    | modify collection w updates pks =>
      simp only [updateChangeWellFormed] at h1
      cases hidx : (storageManager.registry collection).pkIndex with
      | single f =>
        simp [updateTransformLoop, hidx, ih (n + 1) h2, List.flatMap_cons, pendingUpdateSubOps,
          mapWithIndexFrom, Bind.bind, Except.bind]
      | compound es =>
        rw [hidx] at h1
        simp only [Bool.and_eq_true] at h1
        obtain ⟨hf, _⟩ := h1
        simp only [updateTransformLoop, hidx,
          updateTransformCompoundLoop_eq (storageManager.registry collection) collection updates es hidx hf pks n,
          ih (n + pks.length) h2, Bind.bind, Except.bind]
        simp [List.flatMap_cons, pendingUpdateSubOps, hidx, mapWithIndexFrom_append,
          List.length_map]

theorem deleteTransformLoop_eq (storageManager : StorageManager) :
    ∀ (changes : List StorageChange) (n : Nat),
      changes.all (deleteChangeWellFormed storageManager) = true →
      deleteTransformLoop storageManager n changes
        = .ok (mapWithIndexFrom
            (fun k p => BatchOperation.deleteOp (some ("change-" ++ toString k)) p.1 p.2) n
            (changes.flatMap (pendingDeleteSubOps storageManager))) := by
  intro changes
  induction changes with
  | nil => intro n _; rfl
  | cons change rest ih =>
    intro n h
    simp only [List.all_cons, Bool.and_eq_true] at h
    obtain ⟨h1, h2⟩ := h
    cases change with
    | create c v p => simp [deleteChangeWellFormed] at h1
    | modify c w u pks => simp [deleteChangeWellFormed] at h1
    | delete collection w pks =>
      simp only [deleteChangeWellFormed] at h1
      cases hidx : (storageManager.registry collection).pkIndex with
      | single f =>
        simp [deleteTransformLoop, hidx, ih (n + 1) h2, List.flatMap_cons, pendingDeleteSubOps,
          mapWithIndexFrom, Bind.bind, Except.bind]
      | compound es =>
        rw [hidx] at h1
        simp only [Bool.and_eq_true] at h1
        obtain ⟨hf, _⟩ := h1
        simp only [deleteTransformLoop, hidx,
          deleteTransformCompoundLoop_eq (storageManager.registry collection) collection es hidx hf pks n,
          ih (n + pks.length) h2, Bind.bind, Except.bind]
        simp [List.flatMap_cons, pendingDeleteSubOps, hidx, mapWithIndexFrom_append,
          List.length_map]

/-- C1: for every update and delete operation, `transformOperation` returns
`['executeBatch', subOperations]` where each single-key change contributes one
sub-operation with an in-set filter on the key field over the change's full
`pks` list, each compound-key change contributes one sub-operation per
individual primary key with a positionally built filter, and every emitted
sub-operation carries placeholder `change-<k>`, `k` being a zero-based
counter incremented once per emitted sub-operation in emission order. -/
theorem c1_transform_batch_shape (storageManager : StorageManager)
    (info : StorageOperationChangeInfo) (originalOperation : Operation) :
    (info.changes.all (updateChangeWellFormed storageManager) = true →
      (match updateObject.transformOperation with
        | some transform => transform ⟨originalOperation, storageManager, info⟩
        | none => .ok none)
        = .ok (some (.executeBatch (claimUpdateBatch storageManager info.changes))))
    ∧ (info.changes.all (deleteChangeWellFormed storageManager) = true →
      (match deleteObject.transformOperation with
        | some transform => transform ⟨originalOperation, storageManager, info⟩
        | none => .ok none)
        = .ok (some (.executeBatch (claimDeleteBatch storageManager info.changes)))) := by
  constructor
  · intro h
    show Except.bind (updateTransformLoop storageManager 0 info.changes)
        (fun batch => Except.ok (some (Operation.executeBatch batch)))
      = Except.ok (some (.executeBatch (claimUpdateBatch storageManager info.changes)))
    rw [updateTransformLoop_eq storageManager info.changes 0 h]
    rfl
  · intro h
    show Except.bind (deleteTransformLoop storageManager 0 info.changes)
        (fun batch => Except.ok (some (Operation.executeBatch batch)))
      = Except.ok (some (.executeBatch (claimDeleteBatch storageManager info.changes)))
    rw [deleteTransformLoop_eq storageManager info.changes 0 h]
    rfl

theorem createObject_pre_eq (storageManager : StorageManager) (collection : String) (args : JsObject) :
    createObject.getInfoBeforeExecution ⟨.createObject collection args, storageManager⟩
      = .ok ⟨[.create collection (getObjectWithoutPk args collection storageManager.registry)
          (if pkTruthy (getObjectPk args collection storageManager.registry)
           then some (getObjectPk args collection storageManager.registry) else none)]⟩ := rfl

theorem updateObject_pre_eq (storageManager : StorageManager) (collection : String)
    (wh : Where) (updates : JsObject) :
    updateObject.getInfoBeforeExecution ⟨.updateObjects collection wh updates, storageManager⟩
      = .ok ⟨[.modify collection wh updates
          ((storageManager.findObjects collection wh).map
            (fun object => getObjectPk object collection storageManager.registry))]⟩ := rfl

theorem deleteObject_pre_eq (storageManager : StorageManager) (collection : String) (wh : Where) :
    deleteObject.getInfoBeforeExecution ⟨.deleteObjects collection wh, storageManager⟩
      = .ok ⟨[.delete collection wh
          ((storageManager.findObjects collection wh).map
            (fun object => getObjectPk object collection storageManager.registry))]⟩ := rfl

theorem executeBatchPreLoop_error_of_bad (storageManager : StorageManager) :
    ∀ batch : List BatchOperation, batch.any badBatchOperation = true →
      ∃ msg, executeBatchPreLoop storageManager batch = .error msg := by
  intro batch
  induction batch with
  | nil => intro h; simp at h
  | cons b rest ih =>
    intro h
    rw [List.any_cons, Bool.or_eq_true] at h
    cases b with
    | createOp ph collection args =>
      cases hph : truthyOptStr ph with
      | false =>
        refine ⟨"ChangeWatchMiddleware cannot handle executeBatch createObject operations without placeholders", ?_⟩
        simp [executeBatchPreLoop, BatchOperation.placeholder, BatchOperation.operationTag, hph]
      | true =>
        have hb : badBatchOperation (.createOp ph collection args) = false := by
          simp [badBatchOperation, isCreateWithoutPlaceholder, hasUnknownTag,
            BatchOperation.placeholder, BatchOperation.operationTag, hph]
        rw [hb] at h
        simp only [Bool.false_eq_true, false_or] at h
        obtain ⟨msg, hmsg⟩ := ih h
        refine ⟨msg, ?_⟩
        simp [executeBatchPreLoop, BatchOperation.placeholder, BatchOperation.operationTag, hph,
          createObject_pre_eq, hmsg, Bind.bind, Except.bind]
    | updateOp ph collection wh updates =>
      have hb : badBatchOperation (.updateOp ph collection wh updates) = false := by
        simp [badBatchOperation, isCreateWithoutPlaceholder, hasUnknownTag,
          BatchOperation.operationTag]
      rw [hb] at h
      simp only [Bool.false_eq_true, false_or] at h
      obtain ⟨msg, hmsg⟩ := ih h
      refine ⟨msg, ?_⟩
      simp [executeBatchPreLoop, BatchOperation.placeholder, BatchOperation.operationTag,
        updateObject_pre_eq, hmsg, Bind.bind, Except.bind]
    | deleteOp ph collection wh =>
      have hb : badBatchOperation (.deleteOp ph collection wh) = false := by
        simp [badBatchOperation, isCreateWithoutPlaceholder, hasUnknownTag,
          BatchOperation.operationTag]
      rw [hb] at h
      simp only [Bool.false_eq_true, false_or] at h
      obtain ⟨msg, hmsg⟩ := ih h
      refine ⟨msg, ?_⟩
      simp [executeBatchPreLoop, BatchOperation.placeholder, BatchOperation.operationTag,
        deleteObject_pre_eq, hmsg, Bind.bind, Except.bind]
    | unknownOp t =>
      by_cases ht : t = "createObject"
      · refine ⟨"ChangeWatchMiddleware cannot handle executeBatch createObject operations without placeholders", ?_⟩
        simp [executeBatchPreLoop, BatchOperation.placeholder, BatchOperation.operationTag,
          truthyOptStr, ht]
      · refine ⟨"Change watcher middleware encountered unknown batch operation: " ++ t, ?_⟩
        simp [executeBatchPreLoop, BatchOperation.placeholder, BatchOperation.operationTag,
          truthyOptStr, ht]

theorem executeBatchPreLoop_ok_of_no_bad (storageManager : StorageManager) :
    ∀ batch : List BatchOperation, batch.any badBatchOperation = false →
      ∃ infos : List StorageOperationChangeInfo,
        List.Forall₂ (fun b i => dispatchSubOperationPre storageManager b = .ok i) batch infos ∧
        executeBatchPreLoop storageManager batch
          = .ok ((infos.map (fun i => i.changes)).flatten) := by
  intro batch
  induction batch with
  | nil => intro _; exact ⟨[], List.Forall₂.nil, rfl⟩
  | cons b rest ih =>
    intro h
    rw [List.any_cons, Bool.or_eq_false_iff] at h
    obtain ⟨hb, hrest⟩ := h
    obtain ⟨infos, hforall, hloop⟩ := ih hrest
    cases b with
    | createOp ph collection args =>
      have hph : truthyOptStr ph = true := by
        by_contra hph
        rw [Bool.not_eq_true] at hph
        simp [badBatchOperation, isCreateWithoutPlaceholder, hasUnknownTag,
          BatchOperation.placeholder, BatchOperation.operationTag, hph] at hb
      refine ⟨⟨[.create collection (getObjectWithoutPk args collection storageManager.registry)
          (if pkTruthy (getObjectPk args collection storageManager.registry)
           then some (getObjectPk args collection storageManager.registry) else none)]⟩ :: infos,
        List.Forall₂.cons (createObject_pre_eq storageManager collection args) hforall, ?_⟩
      simp [executeBatchPreLoop, BatchOperation.placeholder, BatchOperation.operationTag, hph,
        createObject_pre_eq, hloop, Bind.bind, Except.bind]
    | updateOp ph collection wh updates =>
      refine ⟨⟨[.modify collection wh updates
          ((storageManager.findObjects collection wh).map
            (fun object => getObjectPk object collection storageManager.registry))]⟩ :: infos,
        List.Forall₂.cons (updateObject_pre_eq storageManager collection wh updates) hforall, ?_⟩
      simp [executeBatchPreLoop, BatchOperation.placeholder, BatchOperation.operationTag,
        updateObject_pre_eq, hloop, Bind.bind, Except.bind]
    | deleteOp ph collection wh =>
      refine ⟨⟨[.delete collection wh
          ((storageManager.findObjects collection wh).map
            (fun object => getObjectPk object collection storageManager.registry))]⟩ :: infos,
        List.Forall₂.cons (deleteObject_pre_eq storageManager collection wh) hforall, ?_⟩
      simp [executeBatchPreLoop, BatchOperation.placeholder, BatchOperation.operationTag,
        deleteObject_pre_eq, hloop, Bind.bind, Except.bind]
    | unknownOp t =>
      simp [badBatchOperation, hasUnknownTag] at hb

/-- C3: for every `executeBatch` operation, `getInfoBeforeExecution` throws
if the batch contains a `createObject` sub-operation without a placeholder
(in the JS falsiness sense: absent or empty) or a sub-operation with an
unknown operation tag; otherwise it succeeds and returns the concatenation,
in original batch order, of the per-sub-operation pre-infos. It runs before
the middleware hands the batch to the next pipeline stage, so the error
precedes any execution. -/
theorem c3_batch_pre_fail_fast (storageManager : StorageManager) (batch : List BatchOperation) :
    (batch.any badBatchOperation = true →
      ∃ msg, executeBatch.getInfoBeforeExecution ⟨.executeBatch batch, storageManager⟩
        = .error msg)
    ∧ (batch.any badBatchOperation = false →
      ∃ infos : List StorageOperationChangeInfo,
        List.Forall₂ (fun b i => dispatchSubOperationPre storageManager b = .ok i) batch infos ∧
        executeBatch.getInfoBeforeExecution ⟨.executeBatch batch, storageManager⟩
          = .ok ⟨(infos.map (fun i => i.changes)).flatten⟩) := by
  constructor
  · intro h
    obtain ⟨msg, hmsg⟩ := executeBatchPreLoop_error_of_bad storageManager batch h
    refine ⟨msg, ?_⟩
    show Except.bind (executeBatchPreLoop storageManager batch)
        (fun changes => Except.ok (StorageOperationChangeInfo.mk changes)) = Except.error msg
    rw [hmsg]
    rfl
  · intro h
    obtain ⟨infos, hforall, hloop⟩ := executeBatchPreLoop_ok_of_no_bad storageManager batch h
    refine ⟨infos, hforall, ?_⟩
    show Except.bind (executeBatchPreLoop storageManager batch)
        (fun changes => Except.ok (StorageOperationChangeInfo.mk changes))
      = Except.ok ⟨(infos.map (fun i => i.changes)).flatten⟩
    rw [hloop]
    rfl

theorem createObject_pre_singleton (context : GetInfoBeforeContext) (info : StorageOperationChangeInfo)
    (h : createObject.getInfoBeforeExecution context = .ok info) :
    info.changes.length = 1 := by
  obtain ⟨operation, storageManager⟩ := context
  cases operation with
  | createObject collection values =>
    injection h with h
    subst h
    rfl
  | updateObject a b c => exact Except.noConfusion h
  | updateObjects a b c => exact Except.noConfusion h
  | deleteObject a b => exact Except.noConfusion h
  | deleteObjects a b => exact Except.noConfusion h
  | executeBatch a => exact Except.noConfusion h
  | other a => exact Except.noConfusion h

theorem createObject_post_singleton (context : GetInfoAfterContext) (info : StorageOperationChangeInfo)
    (h : createObject.getInfoAfterExecution context = .ok info) :
    info.changes.length = 1 := by
  obtain ⟨operation, preInfo, result, storageManager⟩ := context
  cases operation with
  | createObject collection values =>
    cases result with
    | objectResult o =>
      injection h with h
      subst h
      rfl
    | batchResult m => exact Except.noConfusion h
    | jsUndefined => exact Except.noConfusion h
    | otherResult => exact Except.noConfusion h
  | updateObject a b c => exact Except.noConfusion h
  | updateObjects a b c => exact Except.noConfusion h
  | deleteObject a b => exact Except.noConfusion h
  | deleteObjects a b => exact Except.noConfusion h
  | executeBatch a => exact Except.noConfusion h
  | other a => exact Except.noConfusion h

theorem updateObject_pre_singleton (context : GetInfoBeforeContext) (info : StorageOperationChangeInfo)
    (h : updateObject.getInfoBeforeExecution context = .ok info) :
    info.changes.length = 1 := by
  obtain ⟨operation, storageManager⟩ := context
  cases operation with
  | updateObject a b c =>
    injection h with h
    subst h
    rfl
  | updateObjects a b c =>
    injection h with h
    subst h
    rfl
  | createObject a b => exact Except.noConfusion h
  | deleteObject a b => exact Except.noConfusion h
  | deleteObjects a b => exact Except.noConfusion h
  | executeBatch a => exact Except.noConfusion h
  | other a => exact Except.noConfusion h

theorem updateObject_post_singleton (context : GetInfoAfterContext) (info : StorageOperationChangeInfo)
    (h : updateObject.getInfoAfterExecution context = .ok info) :
    info.changes.length = 1 := by
  obtain ⟨operation, preInfo, result, storageManager⟩ := context
  obtain ⟨changes⟩ := preInfo
  cases operation with
  | updateObject a b c =>
    cases changes with
    | nil => exact Except.noConfusion h
    | cons head tail =>
      cases head with
      | modify mc mw mu mpks =>
        injection h with h
        subst h
        rfl
      | create c1 c2 c3 => exact Except.noConfusion h
      | delete d1 d2 d3 => exact Except.noConfusion h
  | updateObjects a b c =>
    cases changes with
    | nil => exact Except.noConfusion h
    | cons head tail =>
      cases head with
      | modify mc mw mu mpks =>
        injection h with h
        subst h
        rfl
      | create c1 c2 c3 => exact Except.noConfusion h
      | delete d1 d2 d3 => exact Except.noConfusion h
  | createObject a b => exact Except.noConfusion h
  | deleteObject a b => exact Except.noConfusion h
  | deleteObjects a b => exact Except.noConfusion h
  | executeBatch a => exact Except.noConfusion h
  | other a => exact Except.noConfusion h

theorem deleteObject_pre_singleton (context : GetInfoBeforeContext) (info : StorageOperationChangeInfo)
    (h : deleteObject.getInfoBeforeExecution context = .ok info) :
    info.changes.length = 1 := by
  obtain ⟨operation, storageManager⟩ := context
  cases operation with
  | deleteObject a b =>
    injection h with h
    subst h
    rfl
  | deleteObjects a b =>
    injection h with h
    subst h
    rfl
  | createObject a b => exact Except.noConfusion h
  | updateObject a b c => exact Except.noConfusion h
  | updateObjects a b c => exact Except.noConfusion h
  | executeBatch a => exact Except.noConfusion h
  | other a => exact Except.noConfusion h

theorem deleteObject_post_singleton (context : GetInfoAfterContext) (info : StorageOperationChangeInfo)
    (h : deleteObject.getInfoAfterExecution context = .ok info) :
    info.changes.length = 1 := by
  obtain ⟨operation, preInfo, result, storageManager⟩ := context
  obtain ⟨changes⟩ := preInfo
  cases operation with
  | deleteObject a b =>
    cases changes with
    | nil => exact Except.noConfusion h
    | cons head tail =>
      cases head with
      | delete d1 d2 d3 =>
        injection h with h
        subst h
        rfl
      | create c1 c2 c3 => exact Except.noConfusion h
      | modify m1 m2 m3 m4 => exact Except.noConfusion h
  | deleteObjects a b =>
    cases changes with
    | nil => exact Except.noConfusion h
    | cons head tail =>
      cases head with
      | delete d1 d2 d3 =>
        injection h with h
        subst h
        rfl
      | create c1 c2 c3 => exact Except.noConfusion h
      | modify m1 m2 m3 m4 => exact Except.noConfusion h
  | createObject a b => exact Except.noConfusion h
  | updateObject a b c => exact Except.noConfusion h
  | updateObjects a b c => exact Except.noConfusion h
  | executeBatch a => exact Except.noConfusion h
  | other a => exact Except.noConfusion h

theorem drop_eq_cons_split {α : Type _} : ∀ (l : List α) (i : Nat) (c : α) (t : List α),
    l.drop i = c :: t → l.get? i = some c ∧ l.drop (i + 1) = t := by
  intro l
  induction l with
  | nil => intro i c t h; simp at h
  | cons a l ih =>
    intro i c t h
    cases i with
    | zero =>
      simp only [List.drop_zero] at h
      cases h
      exact ⟨rfl, by simp⟩
    | succ i =>
      simp only [List.drop_succ_cons] at h
      exact ih i c t h

theorem executeBatchPreLoop_cons_create (storageManager : StorageManager) (ph : Option String)
    (collection : String) (args : JsObject) (rest : List BatchOperation)
    (hph : truthyOptStr ph = true) :
    executeBatchPreLoop storageManager (.createOp ph collection args :: rest)
      = Except.bind (executeBatchPreLoop storageManager rest)
          (fun tail => .ok (.create collection (getObjectWithoutPk args collection storageManager.registry)
            (if pkTruthy (getObjectPk args collection storageManager.registry)
             then some (getObjectPk args collection storageManager.registry) else none) :: tail)) := by
  simp [executeBatchPreLoop, BatchOperation.placeholder, BatchOperation.operationTag, hph,
    createObject_pre_eq, Bind.bind, Except.bind]

theorem executeBatchPreLoop_cons_create_noPh (storageManager : StorageManager) (ph : Option String)
    (collection : String) (args : JsObject) (rest : List BatchOperation)
    (hph : truthyOptStr ph = false) :
    executeBatchPreLoop storageManager (.createOp ph collection args :: rest)
      = .error "ChangeWatchMiddleware cannot handle executeBatch createObject operations without placeholders" := by
  simp [executeBatchPreLoop, BatchOperation.placeholder, BatchOperation.operationTag, hph]

theorem executeBatchPreLoop_cons_update (storageManager : StorageManager) (ph : Option String)
    (collection : String) (wh : Where) (updates : JsObject) (rest : List BatchOperation) :
    executeBatchPreLoop storageManager (.updateOp ph collection wh updates :: rest)
      = Except.bind (executeBatchPreLoop storageManager rest)
          (fun tail => .ok (.modify collection wh updates
            ((storageManager.findObjects collection wh).map
              (fun object => getObjectPk object collection storageManager.registry)) :: tail)) := by
  simp [executeBatchPreLoop, BatchOperation.placeholder, BatchOperation.operationTag,
    updateObject_pre_eq, Bind.bind, Except.bind]

theorem executeBatchPreLoop_cons_delete (storageManager : StorageManager) (ph : Option String)
    (collection : String) (wh : Where) (rest : List BatchOperation) :
    executeBatchPreLoop storageManager (.deleteOp ph collection wh :: rest)
      = Except.bind (executeBatchPreLoop storageManager rest)
          (fun tail => .ok (.delete collection wh
            ((storageManager.findObjects collection wh).map
              (fun object => getObjectPk object collection storageManager.registry)) :: tail)) := by
  simp [executeBatchPreLoop, BatchOperation.placeholder, BatchOperation.operationTag,
    deleteObject_pre_eq, Bind.bind, Except.bind]

theorem executeBatchPreLoop_shape (storageManager : StorageManager) :
    ∀ (batch : List BatchOperation) (preOut : List StorageChange),
      executeBatchPreLoop storageManager batch = .ok preOut →
      List.Forall₂ (fun b c => ∃ subInfo, dispatchSubOperationPre storageManager b = .ok subInfo ∧
        subInfo.changes = [c]) batch preOut := by
  intro batch
  induction batch with
  | nil =>
    intro preOut h
    injection h with h
    subst h
    exact List.Forall₂.nil
  | cons b rest ih =>
    intro preOut h
    cases b with
    | createOp ph collection args =>
      cases hph : truthyOptStr ph with
      | false => rw [executeBatchPreLoop_cons_create_noPh storageManager ph collection args rest hph] at h; exact Except.noConfusion h
      | true =>
        rw [executeBatchPreLoop_cons_create storageManager ph collection args rest hph] at h
        cases hr : executeBatchPreLoop storageManager rest with
        | error e => rw [hr] at h; exact Except.noConfusion h
        | ok tail =>
          rw [hr] at h
          injection h with h
          subst h
          exact List.Forall₂.cons ⟨_, createObject_pre_eq storageManager collection args, rfl⟩ (ih tail hr)
    | updateOp ph collection wh updates =>
      rw [executeBatchPreLoop_cons_update storageManager ph collection wh updates rest] at h
      cases hr : executeBatchPreLoop storageManager rest with
      | error e => rw [hr] at h; exact Except.noConfusion h
      | ok tail =>
        rw [hr] at h
        injection h with h
        subst h
        exact List.Forall₂.cons ⟨_, updateObject_pre_eq storageManager collection wh updates, rfl⟩ (ih tail hr)
    | deleteOp ph collection wh =>
      rw [executeBatchPreLoop_cons_delete storageManager ph collection wh rest] at h
      cases hr : executeBatchPreLoop storageManager rest with
      | error e => rw [hr] at h; exact Except.noConfusion h
      | ok tail =>
        rw [hr] at h
        injection h with h
        subst h
        exact List.Forall₂.cons ⟨_, deleteObject_pre_eq storageManager collection wh, rfl⟩ (ih tail hr)
    | unknownOp t =>
      by_cases ht : t = "createObject"
      · subst ht
        simp [executeBatchPreLoop, BatchOperation.placeholder, BatchOperation.operationTag,
          truthyOptStr] at h
      · simp [executeBatchPreLoop, BatchOperation.placeholder, BatchOperation.operationTag,
          truthyOptStr, ht] at h

/-- C10: each non-batch built-in watcher returns exactly one change from
`getInfoBeforeExecution` and exactly one from `getInfoAfterExecution` whenever
it succeeds; consequently the batch watcher's pre-info has exactly one change
per sub-operation, positionally pairing each sub-operation with its own
pre-change (the pairing the post phase reads back by index). -/
theorem c10_one_change_per_watcher (storageManager : StorageManager) :
    (∀ context info, createObject.getInfoBeforeExecution context = .ok info →
      info.changes.length = 1)
    ∧ (∀ context info, createObject.getInfoAfterExecution context = .ok info →
      info.changes.length = 1)
    ∧ (∀ context info, updateObject.getInfoBeforeExecution context = .ok info →
      info.changes.length = 1)
    ∧ (∀ context info, updateObject.getInfoAfterExecution context = .ok info →
      info.changes.length = 1)
    ∧ (∀ context info, deleteObject.getInfoBeforeExecution context = .ok info →
      info.changes.length = 1)
    ∧ (∀ context info, deleteObject.getInfoAfterExecution context = .ok info →
      info.changes.length = 1)
    ∧ (∀ batch info,
      executeBatch.getInfoBeforeExecution ⟨.executeBatch batch, storageManager⟩ = .ok info →
      info.changes.length = batch.length ∧
      List.Forall₂ (fun b c => ∃ subInfo,
        dispatchSubOperationPre storageManager b = .ok subInfo ∧ subInfo.changes = [c])
        batch info.changes) := by
  refine ⟨createObject_pre_singleton, createObject_post_singleton, updateObject_pre_singleton,
    updateObject_post_singleton, deleteObject_pre_singleton, deleteObject_post_singleton,
    fun batch info h => ?_⟩
  have hloop : executeBatchPreLoop storageManager batch = .ok info.changes := by
    revert h
    show Except.bind (executeBatchPreLoop storageManager batch)
        (fun changes => Except.ok (StorageOperationChangeInfo.mk changes)) = .ok info → _
    cases hr : executeBatchPreLoop storageManager batch with
    | error e => intro h; exact Except.noConfusion h
    | ok l =>
      intro h
      injection h with h
      rw [← h]
    
  have hshape := executeBatchPreLoop_shape storageManager batch info.changes hloop
  exact ⟨(List.Forall₂.length_eq hshape).symm, hshape⟩

theorem executeBatchPostLoop_cons_create (storageManager : StorageManager)
    (preChanges : List StorageChange) (result : ExecResult) (i : Nat) (ph : Option String)
    (collection : String) (args : JsObject) (rest : List BatchOperation) :
    executeBatchPostLoop storageManager preChanges result i (.createOp ph collection args :: rest)
      = Except.bind (batchSubResult result ph) (fun subResult =>
          Except.bind (createObject.getInfoAfterExecution
              ⟨.createObject collection args,
                ⟨match preChanges.get? i with | some c => [c] | none => []⟩,
                subResult, storageManager⟩)
            (fun info =>
              Except.bind (executeBatchPostLoop storageManager preChanges result (i + 1) rest)
                (fun tail => .ok (info.changes ++ tail)))) := rfl

theorem executeBatchPostLoop_cons_update (storageManager : StorageManager)
    (preChanges : List StorageChange) (result : ExecResult) (i : Nat) (ph : Option String)
    (collection : String) (wh : Where) (updates : JsObject) (rest : List BatchOperation) :
    executeBatchPostLoop storageManager preChanges result i (.updateOp ph collection wh updates :: rest)
      = Except.bind (updateObject.getInfoAfterExecution
            ⟨.updateObjects collection wh updates,
              ⟨match preChanges.get? i with | some c => [c] | none => []⟩,
              result, storageManager⟩)
          (fun info =>
            Except.bind (executeBatchPostLoop storageManager preChanges result (i + 1) rest)
              (fun tail => .ok (info.changes ++ tail))) := rfl

theorem executeBatchPostLoop_cons_delete (storageManager : StorageManager)
    (preChanges : List StorageChange) (result : ExecResult) (i : Nat) (ph : Option String)
    (collection : String) (wh : Where) (rest : List BatchOperation) :
    executeBatchPostLoop storageManager preChanges result i (.deleteOp ph collection wh :: rest)
      = Except.bind (deleteObject.getInfoAfterExecution
            ⟨.deleteObjects collection wh,
              ⟨match preChanges.get? i with | some c => [c] | none => []⟩,
              result, storageManager⟩)
          (fun info =>
            Except.bind (executeBatchPostLoop storageManager preChanges result (i + 1) rest)
              (fun tail => .ok (info.changes ++ tail))) := rfl

theorem executeBatchLoops_pairing (storageManager : StorageManager) (result : ExecResult)
    (preChanges : List StorageChange) :
    ∀ (batch : List BatchOperation) (i : Nat) (preOut postOut : List StorageChange),
      executeBatchPreLoop storageManager batch = .ok preOut →
      preChanges.drop i = preOut →
      executeBatchPostLoop storageManager preChanges result i batch = .ok postOut →
      List.Forall₂ sameLogicalTarget preOut postOut := by
  intro batch
  induction batch with
  | nil =>
    intro i preOut postOut hpre _ hpost
    injection hpre with hpre
    subst hpre
    injection hpost with hpost
    subst hpost
    exact List.Forall₂.nil
  | cons b rest ih =>
    intro i preOut postOut hpre hdrop hpost
    cases b with
    | createOp ph collection args =>
      cases hph : truthyOptStr ph with
      | false =>
        rw [executeBatchPreLoop_cons_create_noPh storageManager ph collection args rest hph] at hpre
        exact Except.noConfusion hpre
      | true =>
        rw [executeBatchPreLoop_cons_create storageManager ph collection args rest hph] at hpre
        cases hr : executeBatchPreLoop storageManager rest with
        | error e => rw [hr] at hpre; exact Except.noConfusion hpre
        | ok tailPre =>
          rw [hr] at hpre
          injection hpre with hpre
          subst hpre
          obtain ⟨hget, hdrop'⟩ := drop_eq_cons_split preChanges i _ _ hdrop
          rw [executeBatchPostLoop_cons_create, hget] at hpost
          cases hsub : batchSubResult result ph with
          | error e => rw [hsub] at hpost; exact Except.noConfusion hpost
          | ok subResult =>
            rw [hsub] at hpost
            cases subResult with
            | objectResult o =>
              cases hrp : executeBatchPostLoop storageManager preChanges result (i + 1) rest with
              | error e => rw [hrp] at hpost; exact Except.noConfusion hpost
              | ok tailPost =>
                rw [hrp] at hpost
                injection hpost with hpost
                subst hpost
                exact List.Forall₂.cons ⟨rfl, rfl⟩ (ih (i + 1) tailPre tailPost hr hdrop' hrp)
            | batchResult m => exact Except.noConfusion hpost
            | jsUndefined => exact Except.noConfusion hpost
            | otherResult => exact Except.noConfusion hpost
    | updateOp ph collection wh updates =>
      rw [executeBatchPreLoop_cons_update storageManager ph collection wh updates rest] at hpre
      cases hr : executeBatchPreLoop storageManager rest with
      | error e => rw [hr] at hpre; exact Except.noConfusion hpre
      | ok tailPre =>
        rw [hr] at hpre
        injection hpre with hpre
        subst hpre
        obtain ⟨hget, hdrop'⟩ := drop_eq_cons_split preChanges i _ _ hdrop
        rw [executeBatchPostLoop_cons_update, hget] at hpost
        cases hrp : executeBatchPostLoop storageManager preChanges result (i + 1) rest with
        | error e => rw [hrp] at hpost; exact Except.noConfusion hpost
        | ok tailPost =>
          rw [hrp] at hpost
          injection hpost with hpost
          subst hpost
          exact List.Forall₂.cons ⟨rfl, rfl⟩ (ih (i + 1) tailPre tailPost hr hdrop' hrp)
    | deleteOp ph collection wh =>
      rw [executeBatchPreLoop_cons_delete storageManager ph collection wh rest] at hpre
      cases hr : executeBatchPreLoop storageManager rest with
      | error e => rw [hr] at hpre; exact Except.noConfusion hpre
      | ok tailPre =>
        rw [hr] at hpre
        injection hpre with hpre
        subst hpre
        obtain ⟨hget, hdrop'⟩ := drop_eq_cons_split preChanges i _ _ hdrop
        rw [executeBatchPostLoop_cons_delete, hget] at hpost
        cases hrp : executeBatchPostLoop storageManager preChanges result (i + 1) rest with
        | error e => rw [hrp] at hpost; exact Except.noConfusion hpost
        | ok tailPost =>
          rw [hrp] at hpost
          injection hpost with hpost
          subst hpost
          exact List.Forall₂.cons ⟨rfl, rfl⟩ (ih (i + 1) tailPre tailPost hr hdrop' hrp)
    | unknownOp t =>
      by_cases ht : t = "createObject"
      · subst ht
        simp [executeBatchPreLoop, BatchOperation.placeholder, BatchOperation.operationTag,
          truthyOptStr] at hpre
      · simp [executeBatchPreLoop, BatchOperation.placeholder, BatchOperation.operationTag,
          truthyOptStr, ht] at hpre

/-- C4: for every operation handled by one of the default watchers, whenever
pre- and post-execution infos are both produced, the post-info has the same
number of changes as the pre-info, and the changes at each index describe the
same collection and logical target (same type tag, same collection, same
values for creations, same pks for updates and deletions). -/
theorem c4_pre_post_same_targets (storageManager : StorageManager) :
    (∀ name watcher, DEFAULT_OPERATION_WATCHERS name = some watcher →
      watcher = createObject ∨ watcher = updateObject ∨ watcher = deleteObject
        ∨ watcher = executeBatch)
    ∧ (∀ operation result preInfo postInfo,
      createObject.getInfoBeforeExecution ⟨operation, storageManager⟩ = .ok preInfo →
      createObject.getInfoAfterExecution ⟨operation, preInfo, result, storageManager⟩ = .ok postInfo →
      postInfo.changes.length = preInfo.changes.length ∧
      List.Forall₂ sameLogicalTarget preInfo.changes postInfo.changes)
    ∧ (∀ operation result preInfo postInfo,
      updateObject.getInfoBeforeExecution ⟨operation, storageManager⟩ = .ok preInfo →
      updateObject.getInfoAfterExecution ⟨operation, preInfo, result, storageManager⟩ = .ok postInfo →
      postInfo.changes.length = preInfo.changes.length ∧
      List.Forall₂ sameLogicalTarget preInfo.changes postInfo.changes)
    ∧ (∀ operation result preInfo postInfo,
      deleteObject.getInfoBeforeExecution ⟨operation, storageManager⟩ = .ok preInfo →
      deleteObject.getInfoAfterExecution ⟨operation, preInfo, result, storageManager⟩ = .ok postInfo →
      postInfo.changes.length = preInfo.changes.length ∧
      List.Forall₂ sameLogicalTarget preInfo.changes postInfo.changes)
    ∧ (∀ operation result preInfo postInfo,
      executeBatch.getInfoBeforeExecution ⟨operation, storageManager⟩ = .ok preInfo →
      executeBatch.getInfoAfterExecution ⟨operation, preInfo, result, storageManager⟩ = .ok postInfo →
      postInfo.changes.length = preInfo.changes.length ∧
      List.Forall₂ sameLogicalTarget preInfo.changes postInfo.changes) := by
  refine ⟨?_, ?_, ?_, ?_, ?_⟩
  · intro name watcher hw
    unfold DEFAULT_OPERATION_WATCHERS at hw
    split_ifs at hw <;> (injection hw with hww; subst hww; tauto)
  · intro operation result preInfo postInfo hpre hpost
    cases operation with
    | createObject collection values =>
      injection hpre with hpre
      subst hpre
      cases result with
      | objectResult o =>
        injection hpost with hpost
        subst hpost
        exact ⟨rfl, List.Forall₂.cons ⟨rfl, rfl⟩ List.Forall₂.nil⟩
      | batchResult m => exact Except.noConfusion hpost
      | jsUndefined => exact Except.noConfusion hpost
      | otherResult => exact Except.noConfusion hpost
    | updateObject a b c => exact Except.noConfusion hpre
    | updateObjects a b c => exact Except.noConfusion hpre
    | deleteObject a b => exact Except.noConfusion hpre
    | deleteObjects a b => exact Except.noConfusion hpre
    | executeBatch a => exact Except.noConfusion hpre
    | other a => exact Except.noConfusion hpre
  · intro operation result preInfo postInfo hpre hpost
    cases operation with
    | updateObject collection wh updates =>
      injection hpre with hpre
      subst hpre
      injection hpost with hpost
      subst hpost
      exact ⟨rfl, List.Forall₂.cons ⟨rfl, rfl⟩ List.Forall₂.nil⟩
    | updateObjects collection wh updates =>
      injection hpre with hpre
      subst hpre
      injection hpost with hpost
      subst hpost
      exact ⟨rfl, List.Forall₂.cons ⟨rfl, rfl⟩ List.Forall₂.nil⟩
    | createObject a b => exact Except.noConfusion hpre
    | deleteObject a b => exact Except.noConfusion hpre
    | deleteObjects a b => exact Except.noConfusion hpre
    | executeBatch a => exact Except.noConfusion hpre
    | other a => exact Except.noConfusion hpre
  · intro operation result preInfo postInfo hpre hpost
    cases operation with
    | deleteObject collection wh =>
      injection hpre with hpre
      subst hpre
      injection hpost with hpost
      subst hpost
      exact ⟨rfl, List.Forall₂.cons ⟨rfl, rfl⟩ List.Forall₂.nil⟩
    | deleteObjects collection wh =>
      injection hpre with hpre
      subst hpre
      injection hpost with hpost
      subst hpost
      exact ⟨rfl, List.Forall₂.cons ⟨rfl, rfl⟩ List.Forall₂.nil⟩
    | createObject a b => exact Except.noConfusion hpre
    | updateObject a b c => exact Except.noConfusion hpre
    | updateObjects a b c => exact Except.noConfusion hpre
    | executeBatch a => exact Except.noConfusion hpre
    | other a => exact Except.noConfusion hpre
  · intro operation result preInfo postInfo hpre hpost
    cases operation with
    | executeBatch batch =>
      have hl : executeBatchPreLoop storageManager batch = .ok preInfo.changes := by
        revert hpre
        show Except.bind (executeBatchPreLoop storageManager batch)
            (fun changes => Except.ok (StorageOperationChangeInfo.mk changes)) = .ok preInfo → _
        cases hr : executeBatchPreLoop storageManager batch with
        | error e => intro hpre; exact Except.noConfusion hpre
        | ok l =>
          intro hpre
          injection hpre with hpre
          rw [← hpre]
      have hp : executeBatchPostLoop storageManager preInfo.changes result 0 batch
          = .ok postInfo.changes := by
        revert hpost
        show Except.bind (executeBatchPostLoop storageManager preInfo.changes result 0 batch)
            (fun changes => Except.ok (StorageOperationChangeInfo.mk changes)) = .ok postInfo → _
        cases hr : executeBatchPostLoop storageManager preInfo.changes result 0 batch with
        | error e => intro hpost; exact Except.noConfusion hpost
        | ok l =>
          intro hpost
          injection hpost with hpost
          rw [← hpost]
      have hpair := executeBatchLoops_pairing storageManager result preInfo.changes batch 0
        preInfo.changes postInfo.changes hl rfl hp
      exact ⟨(List.Forall₂.length_eq hpair).symm, hpair⟩
    | createObject a b => exact Except.noConfusion hpre
    | updateObject a b c => exact Except.noConfusion hpre
    | updateObjects a b c => exact Except.noConfusion hpre
    | deleteObject a b => exact Except.noConfusion hpre
    | deleteObjects a b => exact Except.noConfusion hpre
    | other a => exact Except.noConfusion hpre

/-- C9: for an update or delete whose filter matches zero objects on a watched
collection, the pre-info still holds exactly one change with `pks = []`, so
the middleware does not short-circuit: both hooks fire and the operation is
rewritten to `['executeBatch', b]`, where `b` holds one sub-operation with an
empty in-set filter for a single-field key and is the empty batch for a
compound key. -/
theorem c9_zero_match_still_rewrites (storageManager : StorageManager)
    (shouldWatch : String → Bool) (next : Operation → StorageOperationChangeInfo → ExecResult)
    (collection : String) (wh : Where) (updates : JsObject)
    (hfind : storageManager.findObjects collection wh = [])
    (hwatch : shouldWatch collection = true) :
    updateObject.getInfoBeforeExecution ⟨.updateObjects collection wh updates, storageManager⟩
      = .ok ⟨[.modify collection wh updates []]⟩
    ∧ deleteObject.getInfoBeforeExecution ⟨.deleteObjects collection wh, storageManager⟩
      = .ok ⟨[.delete collection wh []]⟩
    ∧ (∀ pkField, (storageManager.registry collection).pkIndex = .single pkField →
      ChangeWatchMiddleware.process ⟨true, shouldWatch, DEFAULT_OPERATION_WATCHERS, storageManager⟩
          next (.updateObjects collection wh updates)
        = .ok ⟨next (.executeBatch [.updateOp (some "change-0") collection
                [(pkField, QVal.inList [])] updates]) ⟨[.modify collection wh updates []]⟩,
            .executeBatch [.updateOp (some "change-0") collection [(pkField, QVal.inList [])] updates],
            ⟨[.modify collection wh updates []]⟩,
            some ⟨.updateObjects collection wh updates,
              some (.executeBatch [.updateOp (some "change-0") collection
                [(pkField, QVal.inList [])] updates]),
              ⟨[.modify collection wh updates []]⟩⟩,
            some ⟨.updateObjects collection wh updates,
              some (.executeBatch [.updateOp (some "change-0") collection
                [(pkField, QVal.inList [])] updates]),
              ⟨[.modify collection wh updates []]⟩⟩⟩)
    ∧ (∀ entries, (storageManager.registry collection).pkIndex = .compound entries →
      ChangeWatchMiddleware.process ⟨true, shouldWatch, DEFAULT_OPERATION_WATCHERS, storageManager⟩
          next (.updateObjects collection wh updates)
        = .ok ⟨next (.executeBatch []) ⟨[.modify collection wh updates []]⟩,
            .executeBatch [],
            ⟨[.modify collection wh updates []]⟩,
            some ⟨.updateObjects collection wh updates, some (.executeBatch []),
              ⟨[.modify collection wh updates []]⟩⟩,
            some ⟨.updateObjects collection wh updates, some (.executeBatch []),
              ⟨[.modify collection wh updates []]⟩⟩⟩)
    ∧ (∀ pkField, (storageManager.registry collection).pkIndex = .single pkField →
      ChangeWatchMiddleware.process ⟨true, shouldWatch, DEFAULT_OPERATION_WATCHERS, storageManager⟩
          next (.deleteObjects collection wh)
        = .ok ⟨next (.executeBatch [.deleteOp (some "change-0") collection
                [(pkField, QVal.inList [])]]) ⟨[.delete collection wh []]⟩,
            .executeBatch [.deleteOp (some "change-0") collection [(pkField, QVal.inList [])]],
            ⟨[.delete collection wh []]⟩,
            some ⟨.deleteObjects collection wh,
              some (.executeBatch [.deleteOp (some "change-0") collection
                [(pkField, QVal.inList [])]]),
              ⟨[.delete collection wh []]⟩⟩,
            some ⟨.deleteObjects collection wh,
              some (.executeBatch [.deleteOp (some "change-0") collection
                [(pkField, QVal.inList [])]]),
              ⟨[.delete collection wh []]⟩⟩⟩)
    ∧ (∀ entries, (storageManager.registry collection).pkIndex = .compound entries →
      ChangeWatchMiddleware.process ⟨true, shouldWatch, DEFAULT_OPERATION_WATCHERS, storageManager⟩
          next (.deleteObjects collection wh)
        = .ok ⟨next (.executeBatch []) ⟨[.delete collection wh []]⟩,
            .executeBatch [],
            ⟨[.delete collection wh []]⟩,
            some ⟨.deleteObjects collection wh, some (.executeBatch []),
              ⟨[.delete collection wh []]⟩⟩,
            some ⟨.deleteObjects collection wh, some (.executeBatch []),
              ⟨[.delete collection wh []]⟩⟩⟩) := by
  have hrawU : updateObject.getInfoBeforeExecution
      ⟨.updateObjects collection wh updates, storageManager⟩
      = .ok ⟨[.modify collection wh updates []]⟩ := by
    simp [updateObject_pre_eq, hfind]
  have hrawD : deleteObject.getInfoBeforeExecution ⟨.deleteObjects collection wh, storageManager⟩
      = .ok ⟨[.delete collection wh []]⟩ := by
    simp [deleteObject_pre_eq, hfind]
  have hfilterU : List.filter (fun change => shouldWatch change.collection)
      [StorageChange.modify collection wh updates []]
      = [StorageChange.modify collection wh updates []] := by
    simp [StorageChange.collection, hwatch]
  have hfilterD : List.filter (fun change => shouldWatch change.collection)
      [StorageChange.delete collection wh []]
      = [StorageChange.delete collection wh []] := by
    simp [StorageChange.collection, hwatch]
  have hdaU : DEFAULT_OPERATION_WATCHERS (Operation.updateObjects collection wh updates).name
      = some updateObject := rfl
  have hdaD : DEFAULT_OPERATION_WATCHERS (Operation.deleteObjects collection wh).name
      = some deleteObject := rfl
  refine ⟨hrawU, hrawD, ?_, ?_, ?_, ?_⟩
  · intro pkField hpk
    have hloop : updateTransformLoop storageManager 0 [.modify collection wh updates []]
        = .ok [.updateOp (some "change-0") collection [(pkField, QVal.inList [])] updates] := by
      simp [updateTransformLoop, hpk, Bind.bind, Except.bind]
      rfl
    simp [ChangeWatchMiddleware.process, updateObject, hdaU, hfind, hwatch,
      StorageChange.collection, _findObjectsInvolvedInFilteredOperation, hloop,
      Bind.bind, Except.bind]
  · intro entries hpk
    have hloop : updateTransformLoop storageManager 0 [.modify collection wh updates []]
        = .ok [] := by
      simp [updateTransformLoop, updateTransformCompoundLoop, hpk, Bind.bind, Except.bind]
    simp [ChangeWatchMiddleware.process, updateObject, hdaU, hfind, hwatch,
      StorageChange.collection, _findObjectsInvolvedInFilteredOperation, hloop,
      Bind.bind, Except.bind]
  · intro pkField hpk
    have hloop : deleteTransformLoop storageManager 0 [.delete collection wh []]
        = .ok [.deleteOp (some "change-0") collection [(pkField, QVal.inList [])]] := by
      simp [deleteTransformLoop, hpk, Bind.bind, Except.bind]
      rfl
    simp [ChangeWatchMiddleware.process, deleteObject, hdaD, hfind, hwatch,
      StorageChange.collection, _findObjectsInvolvedInFilteredOperation, hloop,
      Bind.bind, Except.bind]
  · intro entries hpk
    have hloop : deleteTransformLoop storageManager 0 [.delete collection wh []]
        = .ok [] := by
      simp [deleteTransformLoop, deleteTransformCompoundLoop, hpk, Bind.bind, Except.bind]
    simp [ChangeWatchMiddleware.process, deleteObject, hdaD, hfind, hwatch,
      StorageChange.collection, _findObjectsInvolvedInFilteredOperation, hloop,
      Bind.bind, Except.bind]

/-- A two-collection fixture: every collection has the single-field key `id`;
`shouldWatchCollection` accepts only `"accepted"`. -/
def c8Registry : StorageRegistry := fun _ => ⟨some "c8", .single "id"⟩

def c8Manager : StorageManager :=
  ⟨c8Registry, fun collection _ =>
    if collection == "accepted" then [[("id", JsValue.str "1")]] else [[("id", JsValue.str "2")]]⟩

def c8Middleware : ChangeWatchMiddleware :=
  ⟨true, fun collection => collection == "accepted", DEFAULT_OPERATION_WATCHERS, c8Manager⟩

def c8Batch : List BatchOperation :=
  [.deleteOp none "accepted" [], .deleteOp none "rejected" []]

def c8Next : Operation → StorageOperationChangeInfo → ExecResult := fun _ _ => .otherResult

/-- C8: the post-info delivered to `postprocessOperation` is not filtered by
`shouldWatchCollection`: on a batch spanning an accepted and a rejected
collection, the pre-hook's info holds only the accepted collection's change
while the post-hook's info holds changes for both collections, including the
rejected one. -/
theorem c8_post_hook_not_filtered :
    c8Middleware.process c8Next (.executeBatch c8Batch)
      = .ok ⟨.otherResult, .executeBatch c8Batch,
          ⟨[.delete "accepted" [] [.scalar (.str "1")]]⟩,
          some ⟨.executeBatch c8Batch, none, ⟨[.delete "accepted" [] [.scalar (.str "1")]]⟩⟩,
          some ⟨.executeBatch c8Batch, none,
            ⟨[.delete "accepted" [] [.scalar (.str "1")],
              .delete "rejected" [] [.scalar (.str "2")]]⟩⟩⟩
    ∧ (⟨[.delete "accepted" [] [.scalar (.str "1")]]⟩
        : StorageOperationChangeInfo).changes.map StorageChange.collection = ["accepted"]
    ∧ (⟨[.delete "accepted" [] [.scalar (.str "1")],
          .delete "rejected" [] [.scalar (.str "2")]]⟩
        : StorageOperationChangeInfo).changes.map StorageChange.collection
      = ["accepted", "rejected"] :=
  ⟨rfl, rfl, rfl⟩

/-- Witness fixtures: a registry where every collection has the single-field
key `id`, and storage managers whose reads return one object or none. -/
def sampleRegistry : StorageRegistry := fun _ => ⟨some "user", .single "id"⟩

def sampleManager : StorageManager := ⟨sampleRegistry, fun _ _ => [[("id", JsValue.str "1")]]⟩

def emptyFindManager : StorageManager := ⟨sampleRegistry, fun _ _ => []⟩

def sampleNext : Operation → StorageOperationChangeInfo → ExecResult := fun _ _ => .otherResult

def sampleCreateNext : Operation → StorageOperationChangeInfo → ExecResult :=
  fun _ _ => .objectResult [("id", JsValue.str "2")]

def disabledMiddleware : ChangeWatchMiddleware :=
  ⟨false, fun _ => true, DEFAULT_OPERATION_WATCHERS, sampleManager⟩

def watchedMiddleware : ChangeWatchMiddleware :=
  ⟨true, fun _ => true, DEFAULT_OPERATION_WATCHERS, sampleManager⟩

theorem c1_transform_batch_shape_witness :
    ([StorageChange.modify "user" [] [("a", JsValue.str "b")] [.scalar (.str "1")]].all
        (updateChangeWellFormed sampleManager) = true)
    ∧ ((match updateObject.transformOperation with
        | some transform => transform ⟨.updateObjects "user" [] [("a", JsValue.str "b")],
            sampleManager,
            ⟨[StorageChange.modify "user" [] [("a", JsValue.str "b")] [.scalar (.str "1")]]⟩⟩
        | none => .ok none)
        = .ok (some (.executeBatch (claimUpdateBatch sampleManager
            [StorageChange.modify "user" [] [("a", JsValue.str "b")] [.scalar (.str "1")]])))) :=
  ⟨by decide,
    (c1_transform_batch_shape sampleManager
      ⟨[StorageChange.modify "user" [] [("a", JsValue.str "b")] [.scalar (.str "1")]]⟩
      (.updateObjects "user" [] [("a", JsValue.str "b")])).1 (by decide)⟩

theorem c3_batch_pre_fail_fast_witness :
    ([BatchOperation.unknownOp "foo"].any badBatchOperation = true)
    ∧ (∃ msg, executeBatch.getInfoBeforeExecution
        ⟨.executeBatch [.unknownOp "foo"], sampleManager⟩ = .error msg) :=
  ⟨by decide, (c3_batch_pre_fail_fast sampleManager [.unknownOp "foo"]).1 (by decide)⟩

theorem c4_pre_post_same_targets_witness :
    (createObject.getInfoBeforeExecution
        ⟨.createObject "user" [("id", JsValue.str "1")], sampleManager⟩
      = .ok ⟨[.create "user" [] (some (.scalar (.str "1")))]⟩)
    ∧ (createObject.getInfoAfterExecution
        ⟨.createObject "user" [("id", JsValue.str "1")],
          ⟨[.create "user" [] (some (.scalar (.str "1")))]⟩,
          .objectResult [("id", JsValue.str "2")], sampleManager⟩
      = .ok ⟨[.create "user" [] (some (.scalar (.str "2")))]⟩)
    ∧ ((⟨[.create "user" [] (some (.scalar (.str "2")))]⟩
          : StorageOperationChangeInfo).changes.length
        = (⟨[.create "user" [] (some (.scalar (.str "1")))]⟩
          : StorageOperationChangeInfo).changes.length
      ∧ List.Forall₂ sameLogicalTarget
        [StorageChange.create "user" [] (some (.scalar (.str "1")))]
        [StorageChange.create "user" [] (some (.scalar (.str "2")))]) :=
  ⟨rfl, rfl,
    (c4_pre_post_same_targets sampleManager).2.1
      (.createObject "user" [("id", JsValue.str "1")])
      (.objectResult [("id", JsValue.str "2")])
      ⟨[.create "user" [] (some (.scalar (.str "1")))]⟩
      ⟨[.create "user" [] (some (.scalar (.str "2")))]⟩ rfl rfl⟩

theorem c6_short_circuits_witness :
    (disabledMiddleware.enabled = false)
    ∧ (disabledMiddleware.process sampleNext (.other "findObjects")
        = .ok ⟨sampleNext (.other "findObjects") ⟨[]⟩, .other "findObjects", ⟨[]⟩, none, none⟩) :=
  ⟨rfl, (c6_short_circuits disabledMiddleware sampleNext (.other "findObjects")).1 rfl⟩

theorem c10_one_change_per_watcher_witness :
    (executeBatch.getInfoBeforeExecution
        ⟨.executeBatch [.deleteOp none "user" []], sampleManager⟩
      = .ok ⟨[.delete "user" [] [.scalar (.str "1")]]⟩)
    ∧ ((⟨[.delete "user" [] [.scalar (.str "1")]]⟩
          : StorageOperationChangeInfo).changes.length
        = [BatchOperation.deleteOp none "user" []].length
      ∧ List.Forall₂ (fun b c => ∃ subInfo,
          dispatchSubOperationPre sampleManager b = .ok subInfo ∧ subInfo.changes = [c])
        [BatchOperation.deleteOp none "user" []]
        [StorageChange.delete "user" [] [.scalar (.str "1")]]) :=
  ⟨rfl,
    (c10_one_change_per_watcher sampleManager).2.2.2.2.2.2
      [.deleteOp none "user" []] ⟨[.delete "user" [] [.scalar (.str "1")]]⟩ rfl⟩

theorem c7_post_uses_raw_pre_info_witness :
    (watchedMiddleware.enabled = true)
    ∧ (watchedMiddleware.operationWatchers
        (Operation.createObject "user" [("id", JsValue.str "1")]).name = some createObject)
    ∧ (createObject.getInfoBeforeExecution
        ⟨.createObject "user" [("id", JsValue.str "1")], watchedMiddleware.storageManager⟩
      = .ok ⟨[.create "user" [] (some (.scalar (.str "1")))]⟩)
    ∧ (((⟨[.create "user" [] (some (.scalar (.str "1")))]⟩
          : StorageOperationChangeInfo).changes.filter
        (fun change => watchedMiddleware.shouldWatchCollection change.collection)).isEmpty = false)
    ∧ ((match createObject.transformOperation with
        | some transform => transform
            ⟨.createObject "user" [("id", JsValue.str "1")], watchedMiddleware.storageManager,
              ⟨[.create "user" [] (some (.scalar (.str "1")))]⟩⟩
        | none => .ok none) = .ok none)
    ∧ (createObject.getInfoAfterExecution
        ⟨.createObject "user" [("id", JsValue.str "1")],
          ⟨[.create "user" [] (some (.scalar (.str "1")))]⟩,
          .objectResult [("id", JsValue.str "2")], watchedMiddleware.storageManager⟩
      = .ok ⟨[.create "user" [] (some (.scalar (.str "2")))]⟩)
    ∧ (watchedMiddleware.process sampleCreateNext (.createObject "user" [("id", JsValue.str "1")])
      = .ok ⟨.objectResult [("id", JsValue.str "2")],
          .createObject "user" [("id", JsValue.str "1")],
          ⟨[.create "user" [] (some (.scalar (.str "1")))]⟩,
          some ⟨.createObject "user" [("id", JsValue.str "1")], none,
            ⟨[.create "user" [] (some (.scalar (.str "1")))]⟩⟩,
          some ⟨.createObject "user" [("id", JsValue.str "1")], none,
            ⟨[.create "user" [] (some (.scalar (.str "2")))]⟩⟩⟩) :=
  ⟨rfl, rfl, rfl, rfl, rfl, rfl,
    c7_post_uses_raw_pre_info watchedMiddleware sampleCreateNext
      (.createObject "user" [("id", JsValue.str "1")]) createObject
      ⟨[.create "user" [] (some (.scalar (.str "1")))]⟩
      ⟨[.create "user" [] (some (.scalar (.str "2")))]⟩
      none rfl rfl rfl rfl rfl rfl⟩

theorem c9_zero_match_still_rewrites_witness :
    (emptyFindManager.findObjects "user" [] = [])
    ∧ ((fun (_ : String) => true) "user" = true)
    ∧ ((emptyFindManager.registry "user").pkIndex = PkIndex.single "id")
    ∧ (ChangeWatchMiddleware.process
        ⟨true, fun _ => true, DEFAULT_OPERATION_WATCHERS, emptyFindManager⟩
        sampleNext (.updateObjects "user" [] [("a", JsValue.str "b")])
      = .ok ⟨sampleNext (.executeBatch [.updateOp (some "change-0") "user"
              [("id", QVal.inList [])] [("a", JsValue.str "b")]])
            ⟨[.modify "user" [] [("a", JsValue.str "b")] []]⟩,
          .executeBatch [.updateOp (some "change-0") "user"
            [("id", QVal.inList [])] [("a", JsValue.str "b")]],
          ⟨[.modify "user" [] [("a", JsValue.str "b")] []]⟩,
          some ⟨.updateObjects "user" [] [("a", JsValue.str "b")],
            some (.executeBatch [.updateOp (some "change-0") "user"
              [("id", QVal.inList [])] [("a", JsValue.str "b")]]),
            ⟨[.modify "user" [] [("a", JsValue.str "b")] []]⟩⟩,
          some ⟨.updateObjects "user" [] [("a", JsValue.str "b")],
            some (.executeBatch [.updateOp (some "change-0") "user"
              [("id", QVal.inList [])] [("a", JsValue.str "b")]]),
            ⟨[.modify "user" [] [("a", JsValue.str "b")] []]⟩⟩⟩) :=
  ⟨rfl, rfl, rfl,
    (c9_zero_match_still_rewrites emptyFindManager (fun _ => true) sampleNext "user" []
      [("a", JsValue.str "b")] rfl rfl).2.2.1 "id" rfl⟩
